import Mathlib

/-!
# Container tools of the thin-cloning engine

A shallow embedding of the helpers in

* `engine/internal/retrieval/engine/postgres/tools/tools.go` (namespace `Engine`), and
* `pkg/retrieval/engine/postgres/tools/tools.go` (namespace `Pkg`),

together with the properties that are proved about them.

Go strings and byte slices are byte sequences: both are lists of byte values here.
Calls to the container runtime are the environment of a function: each function takes
the answers of the runtime as an argument and returns, next to its Go results, the
sequence of runtime calls it made.
-/

set_option autoImplicit false

/-! ## Strings, bytes and errors -/

/-- A byte value (0..255). -/
abbrev Byte := Nat

/-- Go `string` and `[]byte`: a sequence of bytes (a nil slice is the empty sequence). -/
abbrev GoString := List Byte

/-- The bytes of an ASCII literal. -/
def str (s : String) : GoString := s.data.map Char.toNat

/-- Rendering of the verb `%d` for a Go `int`. -/
def fmtInt (n : Int) : GoString := str (toString n)

/-- The two values of `ctx.Err()` once the context is done. -/
inductive CtxErr where
  | Canceled
  | DeadlineExceeded
  deriving DecidableEq, Repr

/-- Go `error` values built or passed on by the tools package. -/
inductive GoErr where
  /-- `errors.New(msg)`, `errors.Errorf(..)`, `fmt.Errorf(..)` without `%w`. -/
  | new (msg : GoString)
  /-- `errors.Wrap(cause, msg)` and `fmt.Errorf("msg: %w", cause)`. -/
  | wrap (msg : GoString) (cause : GoErr)
  /-- `ctx.Err()` of a context that is done. -/
  | ctx (cause : CtxErr)
  /-- `&ErrHealthCheck{ExitCode, Output}`. -/
  | healthCheck (ExitCode : Int) (Output : GoString)
  deriving DecidableEq, Repr

namespace GoErr

/-- The method `Error()`: the message of an error. -/
def Error : GoErr → GoString
  | new msg => msg
  | wrap msg cause => msg ++ str ": " ++ Error cause
  | ctx .Canceled => str "context canceled"
  | ctx .DeadlineExceeded => str "context deadline exceeded"
  | healthCheck code output =>
      str "health check failed. Code: " ++ fmtInt code ++ str ", Output: " ++ output

end GoErr

/-! ## `bytes.TrimSpace`

Go's standard library slices off all leading and trailing white space, "as defined by
Unicode", reading the bytes as UTF-8. A byte sequence starts (ends) with a white-space
rune exactly when it starts (ends) with the UTF-8 encoding of one of the 25 code points
for which `unicode.IsSpace` holds; invalid UTF-8 decodes to `RuneError`, which is not
white space. -/

/-- UTF-8 encodings of the code points of `unicode.IsSpace`: tab, LF, VT, FF, CR, space,
U+0085, U+00A0, U+1680, U+2000..U+200A, U+2028, U+2029, U+202F, U+205F, U+3000. -/
def spaceRunes : List GoString :=
  [[9], [10], [11], [12], [13], [32],
   [194, 133], [194, 160],
   [225, 154, 128],
   [226, 128, 128], [226, 128, 129], [226, 128, 130], [226, 128, 131], [226, 128, 132],
   [226, 128, 133], [226, 128, 134], [226, 128, 135], [226, 128, 136], [226, 128, 137],
   [226, 128, 138],
   [226, 128, 168], [226, 128, 169], [226, 128, 175],
   [226, 129, 159],
   [227, 128, 128]]

/-- The white-space rune a byte sequence starts with, if any. -/
def leadingSpace (s : GoString) : Option GoString :=
  spaceRunes.find? (fun w => w.isPrefixOf s)

/-- The white-space rune a byte sequence ends with, if any. -/
def trailingSpace (s : GoString) : Option GoString :=
  spaceRunes.find? (fun w => w.reverse.isPrefixOf s.reverse)

/-- Drop leading white-space runes, at most `fuel` of them. -/
def trimLeftN : Nat → GoString → GoString
  | 0, s => s
  | fuel + 1, s =>
    match leadingSpace s with
    | none => s
    | some w => trimLeftN fuel (s.drop w.length)

/-- Drop trailing white-space runes, at most `fuel` of them. -/
def trimRightN : Nat → GoString → GoString
  | 0, s => s
  | fuel + 1, s =>
    match trailingSpace s with
    | none => s
    | some w => trimRightN fuel (s.take (s.length - w.length))

/-- Go `bytes.TrimSpace`: a rune is at least one byte, so `length` rounds are enough. -/
def TrimSpace (s : GoString) : GoString :=
  let l := trimLeftN s.length s
  trimRightN l.length l

/-- A run of white space: a concatenation of encoded white-space runes. -/
inductive SpaceRun : GoString → Prop where
  | nil : SpaceRun []
  | cons (w t : GoString) : w ∈ spaceRunes → SpaceRun t → SpaceRun (w ++ t)

/-! ## Command execution (`ExecCommandWithOutput`) -/

/-- Calls to the container runtime. -/
inductive ApiCall where
  | ContainerExecCreate
  | ContainerExecAttach
  | ContainerExecInspect
  | ContainerInspect
  | ContainerLogs
  deriving DecidableEq, Repr

/-- Go `types.ContainerExecInspect`, the fields the package reads. -/
structure ContainerExecInspect where
  Running : Bool
  ExitCode : Int
  deriving DecidableEq, Repr

/-- The branch taken by the `select` of `processAttachResponse`: either the
demultiplexing goroutine reported on `outputDone` (the two buffers then hold what
`stdcopy.StdCopy` wrote, `err` is what it returned), or the context was done. -/
inductive AttachEvent where
  | outputDone (outBuf errBuf : GoString) (err : Option GoErr)
  | ctxDone (cause : CtxErr)
  deriving DecidableEq, Repr

/-- What the runtime answers during one `ExecCommandWithOutput`. -/
structure ExecClient where
  /-- Result of `ContainerExecCreate`: the exec ID. -/
  ContainerExecCreate : Except GoErr GoString
  /-- Result of `ContainerExecAttach` (the stream itself is read by `StdCopy`). -/
  ContainerExecAttach : Except GoErr Unit
  /-- What the `select` over the attached stream observes. -/
  attach : AttachEvent
  /-- Result of `ContainerExecInspect`. -/
  ContainerExecInspect : Except GoErr ContainerExecInspect

/-- Results of `ExecCommandWithOutput`, and the runtime calls made, in order. -/
structure ExecResult where
  output : GoString
  err : Option GoErr
  calls : List ApiCall
  deriving DecidableEq, Repr

namespace Engine

/-- Go `processAttachResponse` (engine/.../tools.go:529-558). -/
def processAttachResponse (ev : AttachEvent) : GoString × Option GoErr :=
  match ev with
  | .outputDone _ _ (some err) => ([], some (.wrap (str "failed to copy output") err))
  | .ctxDone cause => ([], some (.ctx cause))
  | .outputDone outBuf errBuf none =>
    if errBuf.length > 0 then ([], some (.new errBuf))
    else (TrimSpace outBuf, none)

/-- Go `ExecCommandWithOutput` (engine/.../tools.go:494-527). -/
def ExecCommandWithOutput (c : ExecClient) : ExecResult :=
  match c.ContainerExecCreate with
  | .error err =>
    ⟨[], some (.wrap (str "failed to create an exec command") err), [.ContainerExecCreate]⟩
  | .ok _ =>
    match c.ContainerExecAttach with
    | .error err =>
      ⟨[], some (.wrap (str "failed to attach to exec command") err),
        [.ContainerExecCreate, .ContainerExecAttach]⟩
    | .ok _ =>
      match processAttachResponse c.attach with
      | (output, some err) =>
        ⟨output, some (.wrap (str "failed to read response of exec command") err),
          [.ContainerExecCreate, .ContainerExecAttach]⟩
      | (output, none) =>
        match c.ContainerExecInspect with
        | .error err =>
          ⟨[], some (.wrap (str "failed to inspect an exec process") err),
            [.ContainerExecCreate, .ContainerExecAttach, .ContainerExecInspect]⟩
        | .ok inspection =>
          if inspection.ExitCode ≠ 0 then
            ⟨output, some (.new (str "exit code: " ++ fmtInt inspection.ExitCode)),
              [.ContainerExecCreate, .ContainerExecAttach, .ContainerExecInspect]⟩
          else
            ⟨output, none,
              [.ContainerExecCreate, .ContainerExecAttach, .ContainerExecInspect]⟩

end Engine

/-! ## Paths: `strings.HasPrefix`, `strings.TrimPrefix`, `path.Clean`, `path.Join` -/

/-- The byte of the separator, and of the dot. -/
def slash : Byte := 47

/-- The byte of the dot. -/
def dot : Byte := 46

/-- Go `strings.HasPrefix(s, pre)`: `len(s) >= len(pre) && s[0:len(pre)] == pre`. -/
def hasPrefixOf (s pre : GoString) : Bool :=
  decide (pre.length ≤ s.length) && (s.take pre.length == pre)

/-- Go `strings.TrimPrefix(s, pre)`. -/
def trimPrefixOf (s pre : GoString) : GoString :=
  if hasPrefixOf s pre then s.drop pre.length else s

/-- The backtracking of `path.Clean` on a `..` element, started at `w = out.w - 1`:
`for out.w > dotdot && out.index(out.w) != '/' { out.w-- }`; returns the final `out.w`. -/
def backtrack (out : GoString) (dotdot : Nat) : Nat → Nat
  | 0 => 0
  | w + 1 =>
    if w + 1 > dotdot ∧ out[w + 1]? ≠ some slash then backtrack out dotdot w else w + 1

/-- The main loop of Go `path.Clean`: `rest` is `path[r:]`, `out` the bytes written so
far, `dotdot` the index where `..` must stop. Every round consumes input, so `fuel`
equal to the input length is enough. -/
def cleanLoop (rooted : Bool) : Nat → GoString → GoString → Nat → GoString
  | 0, _, out, _ => out
  | _ + 1, [], out, _ => out
  | fuel + 1, c :: rest, out, dotdot =>
    if c = slash then
      -- empty path element
      cleanLoop rooted fuel rest out dotdot
    else if c = dot ∧ (rest = [] ∨ rest.head? = some slash) then
      -- . element
      cleanLoop rooted fuel rest out dotdot
    else if c = dot ∧ rest.head? = some dot ∧
        (rest.tail = [] ∨ rest.tail.head? = some slash) then
      -- .. element: remove to last /
      if out.length > dotdot then
        cleanLoop rooted fuel rest.tail
          (out.take (backtrack out dotdot (out.length - 1))) dotdot
      else if rooted = false then
        let out1 := (if out.length > 0 then out ++ [slash] else out) ++ [dot, dot]
        cleanLoop rooted fuel rest.tail out1 out1.length
      else
        cleanLoop rooted fuel rest.tail out dotdot
    else
      -- real path element: add slash if needed, copy element
      let out1 :=
        if (rooted = true ∧ out.length ≠ 1) ∨ (rooted = false ∧ out.length ≠ 0)
        then out ++ [slash] else out
      cleanLoop rooted fuel ((c :: rest).dropWhile (fun b => b ≠ slash))
        (out1 ++ (c :: rest).takeWhile (fun b => b ≠ slash)) dotdot

/-- Go `path.Clean`. -/
def Clean (path : GoString) : GoString :=
  match path with
  | [] => [dot]
  | c :: rest =>
    let out :=
      if c = slash then cleanLoop true (rest.length + 1) rest [slash] 1
      else cleanLoop false (rest.length + 2) (c :: rest) [] 0
    if out.length = 0 then [dot] else out

/-- Go `path.Join`: the elements from the first non-empty one on, separated by slashes
and cleaned; the empty string when all are empty. -/
def pathJoin : List GoString → GoString
  | [] => []
  | e :: rest =>
    if e ≠ [] then Clean (List.intercalate [slash] (e :: rest)) else pathJoin rest

/-- The elements of a path: the non-empty parts between slashes. -/
def pathElements (path : GoString) : List GoString :=
  (path.foldr (fun b acc =>
      if b = slash then [] :: acc
      else match acc with
        | [] => [[b]]
        | e :: es => (b :: e) :: es) [[]]).filter (fun e => e ≠ [])

/-- A path is an ancestor of (or equal to) another when its elements are the first
elements of the other. -/
def isPathAncestor (dir path : GoString) : Prop :=
  pathElements dir <+: pathElements path

/-! ## Mounts (`GetMountsFromMountPoints`, `AddVolumesToHostConfig`) -/

/-- Go `types.MountPoint`; `Typ` is the field `Type`. -/
structure MountPoint where
  Typ : GoString
  Name : GoString
  Source : GoString
  Destination : GoString
  Driver : GoString
  Mode : GoString
  RW : Bool
  Propagation : GoString
  deriving DecidableEq, Repr

/-- Go `mount.BindOptions`, the field the package sets. -/
structure BindOptions where
  Propagation : GoString
  deriving DecidableEq, Repr

/-- Go `mount.Mount`, the fields the package sets (the others keep their zero value);
`Typ` is the field `Type`, a nil `BindOptions` is `none`. -/
structure Mount where
  Typ : GoString
  Source : GoString
  Target : GoString
  ReadOnly : Bool
  BindOptions : Option BindOptions
  deriving DecidableEq, Repr

/-- Go `mount.TypeBind`. -/
def TypeBind : GoString := str "bind"

/-- Go `container.HostConfig`, the field the package touches. -/
structure HostConfig where
  Mounts : List Mount
  deriving DecidableEq, Repr

/-- Go `host.InfoStat` of gopsutil, the fields the package reads. -/
structure InfoStat where
  Hostname : GoString
  VirtualizationSystem : GoString
  VirtualizationRole : GoString
  deriving DecidableEq, Repr

/-- Go `types.HealthcheckResult`, the fields the package reads. -/
structure HealthcheckResult where
  ExitCode : Int
  Output : GoString
  deriving DecidableEq, Repr

/-- Go `types.Health`. -/
structure Health where
  Status : GoString
  FailingStreak : Int
  Log : List HealthcheckResult
  deriving DecidableEq, Repr

/-- Go `types.ContainerState`, the field the package reads (a nil `Health` is `none`). -/
structure ContainerState where
  Health : Option Health
  deriving DecidableEq, Repr

/-- Go `container.HealthConfig`, the field the package reads. -/
structure HealthConfig where
  Retries : Int
  deriving DecidableEq, Repr

/-- Go `container.Config`, the field the package reads (a nil pointer is `none`). -/
structure Config where
  Healthcheck : Option HealthConfig
  deriving DecidableEq, Repr

/-- Go `types.ContainerJSON`, the fields the package reads (nil pointers are `none`). -/
structure ContainerJSON where
  State : Option ContainerState
  Config : Option Config
  Mounts : List MountPoint
  deriving DecidableEq, Repr

/-- What the host and the runtime answer during one `AddVolumesToHostConfig`. -/
structure HostEnv where
  /-- Result of `host.Info()`. -/
  Info : Except GoErr InfoStat
  /-- Result of `ContainerInspect` for a container name. -/
  ContainerInspect : GoString → Except GoErr ContainerJSON

namespace Engine

/-- The body of the loop of `GetMountsFromMountPoints`: the mount appended for one
mount point. -/
def mountOf (dataDir : GoString) (mountPoint : MountPoint) : Mount :=
  let mountPoint :=
    -- Rewrite mounting to data directory.
    if hasPrefixOf dataDir mountPoint.Destination then
      let suffix := trimPrefixOf dataDir mountPoint.Destination
      { mountPoint with
        Source := pathJoin [mountPoint.Source, suffix]
        Destination := dataDir }
    else mountPoint
  { Typ := mountPoint.Typ
    Source := mountPoint.Source
    Target := mountPoint.Destination
    ReadOnly := !mountPoint.RW
    BindOptions := some { Propagation := mountPoint.Propagation } }

/-- Go `GetMountsFromMountPoints` (engine/.../tools.go:156-180). -/
def GetMountsFromMountPoints (dataDir : GoString) (mountPoints : List MountPoint) :
    List Mount :=
  mountPoints.foldl (fun mounts mountPoint => mounts ++ [mountOf dataDir mountPoint]) []

/-- Go `AddVolumesToHostConfig` (engine/.../tools.go:127-154): the host configuration
after the call, and the error returned. -/
def AddVolumesToHostConfig (env : HostEnv) (hostConfig : HostConfig) (dataDir : GoString) :
    HostConfig × Option GoErr :=
  match env.Info with
  | .error err => (hostConfig, some (.wrap (str "failed to get host info") err))
  | .ok hostInfo =>
    if hostInfo.VirtualizationRole = str "guest" then
      match env.ContainerInspect hostInfo.Hostname with
      | .error err => (hostConfig, some err)
      | .ok inspection =>
        ({ hostConfig with Mounts := GetMountsFromMountPoints dataDir inspection.Mounts }, none)
    else
      ({ hostConfig with
          Mounts := hostConfig.Mounts ++
            [{ Typ := TypeBind, Source := dataDir, Target := dataDir,
               ReadOnly := false, BindOptions := none }] }, none)

end Engine

namespace Pkg

/-- The body of the loop of `GetMountsFromMountPoints`: the mount appended for one
mount point. -/
def mountOf (dataDir : GoString) (mountPoint : MountPoint) : Mount :=
  let mountPoint :=
    -- Rewrite mounting to data directory.
    if hasPrefixOf dataDir mountPoint.Destination then
      let suffix := trimPrefixOf dataDir mountPoint.Destination
      { mountPoint with
        Source := pathJoin [mountPoint.Source, suffix]
        Destination := dataDir }
    else mountPoint
  { Typ := mountPoint.Typ
    Source := mountPoint.Source
    Target := mountPoint.Destination
    ReadOnly := !mountPoint.RW
    BindOptions := some { Propagation := mountPoint.Propagation } }

/-- Go `GetMountsFromMountPoints` (pkg/.../tools.go:130-154). -/
def GetMountsFromMountPoints (dataDir : GoString) (mountPoints : List MountPoint) :
    List Mount :=
  mountPoints.foldl (fun mounts mountPoint => mounts ++ [mountOf dataDir mountPoint]) []

/-- Go `AddVolumesToHostConfig` (pkg/.../tools.go:100-128): the host configuration
after the call, and the error returned. -/
def AddVolumesToHostConfig (env : HostEnv) (hostConfig : HostConfig) (dataDir : GoString) :
    HostConfig × Option GoErr :=
  match env.Info with
  | .error err => (hostConfig, some (.wrap (str "failed to get host info") err))
  | .ok hostInfo =>
    if hostInfo.VirtualizationRole = str "guest" then
      match env.ContainerInspect hostInfo.Hostname with
      | .error err => (hostConfig, some err)
      | .ok inspection =>
        ({ hostConfig with Mounts := GetMountsFromMountPoints dataDir inspection.Mounts }, none)
    else
      ({ hostConfig with
          Mounts := hostConfig.Mounts ++
            [{ Typ := TypeBind, Source := dataDir, Target := dataDir,
               ReadOnly := false, BindOptions := none }] }, none)

end Pkg

/-! ## Readiness polling (`CheckContainerReadiness`) -/

/-- Go `types.Healthy`. -/
def Healthy : GoString := str "healthy"

/-- Go `types.Unhealthy`. -/
def Unhealthy : GoString := str "unhealthy"

/-- Go `types.Starting`. -/
def Starting : GoString := str "starting"

/-- What one round of the polling loop observes: `ctxErr` is `ctx.Err()` at the
`select` (`none` while the context is not done), `ContainerInspect` the answer the
runtime gives if it is asked in this round. -/
structure Tick where
  ctxErr : Option CtxErr
  ContainerInspect : Except GoErr ContainerJSON

/-- How one round of the loop ends, and how a run stands after the rounds given:
the loop sleeps a second and goes on (the run is still polling), the function returns
`err`, or the round dereferences a nil pointer. -/
inductive Step where
  | sleep
  | ret (err : Option GoErr)
  | nilDeref
  deriving DecidableEq, Repr

/-- A run of `CheckContainerReadiness` over finitely many rounds: where it stands, the
runtime calls made and the number of one-second sleeps. -/
structure PollResult where
  outcome : Step
  calls : List ApiCall
  sleeps : Nat
  deriving DecidableEq, Repr

/-- An error that includes a probe-log entry: its message contains the decimal exit
code and the captured output. -/
def CarriesProbe (e : GoErr) (p : HealthcheckResult) : Prop :=
  fmtInt p.ExitCode <:+: e.Error ∧ p.Output <:+: e.Error

namespace Engine

/-- The part of the loop body of `CheckContainerReadiness` after a successful
inspection (engine/.../tools.go:334-354). -/
def healthStep (resp : ContainerJSON) : Step :=
  match resp.State with
  | none => .sleep
  | some state =>
    match state.Health with
    | none => .sleep
    | some health =>
      if health.Status = Healthy then .ret none
      else if health.Status = Unhealthy then
        match resp.Config with
        | none => .nilDeref
        | some config =>
          match config.Healthcheck with
          | none => .nilDeref
          | some healthcheck =>
            .ret (some (.new (str ("container health check failed. " ++
              "The maximum number of attempts has reached: ") ++ fmtInt healthcheck.Retries)))
      else
        match health.Log.getLast? with
        | none => .sleep
        | some lastHealthCheck =>
          if lastHealthCheck.ExitCode > 1 then
            .ret (some (.healthCheck lastHealthCheck.ExitCode lastHealthCheck.Output))
          else .sleep

/-- One round of the loop of `CheckContainerReadiness` (engine/.../tools.go:322-354):
how it ends and the runtime calls it made. -/
def pollOnce (containerID : GoString) (t : Tick) : Step × List ApiCall :=
  match t.ctxErr with
  | some cause => (.ret (some (.ctx cause)), [])
  | none =>
    match t.ContainerInspect with
    | .error err =>
      (.ret (some (.wrap (str "failed to inspect container " ++ containerID) err)),
        [.ContainerInspect])
    | .ok resp => (healthStep resp, [.ContainerInspect])

/-- Go `CheckContainerReadiness` (engine/.../tools.go:318-356), run over the rounds
given. -/
def CheckContainerReadiness (containerID : GoString) : List Tick → PollResult
  | [] => ⟨.sleep, [], 0⟩
  | t :: rest =>
    match pollOnce containerID t with
    | (.sleep, calls) =>
      let r := CheckContainerReadiness containerID rest
      ⟨r.outcome, calls ++ r.calls, r.sleeps + 1⟩
    | (step, calls) => ⟨step, calls, 0⟩

end Engine

namespace Pkg

/-- The part of the loop body of `CheckContainerReadiness` after a successful
inspection (pkg/.../tools.go:233-251). -/
def healthStep (resp : ContainerJSON) : Step :=
  match resp.State with
  | none => .sleep
  | some state =>
    match state.Health with
    | none => .sleep
    | some health =>
      if health.Status = Healthy then .ret none
      else if health.Status = Unhealthy then
        .ret (some (.new (str "container health check failed")))
      else
        match health.Log.getLast? with
        | none => .sleep
        | some lastHealthCheck =>
          if lastHealthCheck.ExitCode > 1 then
            .ret (some (.new (str "health check failed. Code: " ++
              fmtInt lastHealthCheck.ExitCode ++ str ", Output: " ++ lastHealthCheck.Output)))
          else .sleep

/-- One round of the loop of `CheckContainerReadiness` (pkg/.../tools.go:221-253):
how it ends and the runtime calls it made. -/
def pollOnce (containerID : GoString) (t : Tick) : Step × List ApiCall :=
  match t.ctxErr with
  | some _ => (.ret none, [])
  | none =>
    match t.ContainerInspect with
    | .error err =>
      (.ret (some (.wrap (str "failed to inspect container " ++ containerID) err)),
        [.ContainerInspect])
    | .ok resp => (healthStep resp, [.ContainerInspect])

/-- Go `CheckContainerReadiness` (pkg/.../tools.go:219-255), run over the rounds
given. -/
def CheckContainerReadiness (containerID : GoString) : List Tick → PollResult
  | [] => ⟨.sleep, [], 0⟩
  | t :: rest =>
    match pollOnce containerID t with
    | (.sleep, calls) =>
      let r := CheckContainerReadiness containerID rest
      ⟨r.outcome, calls ++ r.calls, r.sleeps + 1⟩
    | (step, calls) => ⟨step, calls, 0⟩

end Pkg

/-- An inspection of a container whose health record has the given status and log,
with a health check of three retries configured. -/
def inspected (status : GoString) (log : List HealthcheckResult) : ContainerJSON :=
  { State := some { Health := some { Status := status, FailingStreak := 0, Log := log } }
    Config := some { Healthcheck := some { Retries := 3 } }
    Mounts := [] }

/-- A run of inspections without cancellation: one round for each inspection result. -/
def noCancel (inspections : List ContainerJSON) : List Tick :=
  inspections.map (fun resp => ⟨none, .ok resp⟩)

/-! ## Inspection of a finished command (`InspectCommandResponse`) -/

/-- What the runtime answers during one `InspectCommandResponse`. -/
structure InspectClient where
  /-- Result of `ContainerExecInspect`. -/
  ContainerExecInspect : Except GoErr ContainerExecInspect
  /-- Result of `ContainerLogs` for the last `essentialLogsInterval`. -/
  ContainerLogs : Except GoErr Unit
  /-- Result of `ioutil.ReadAll` on the log stream. -/
  ReadAll : Except GoErr GoString

namespace Pkg

/-- Go `InspectCommandResponse` (pkg/.../tools.go:189-217): the error returned and the
runtime calls made, in order. -/
def InspectCommandResponse (c : InspectClient) : Option GoErr × List ApiCall :=
  match c.ContainerExecInspect with
  | .error err =>
    (some (.wrap (str "failed to create command") err), [.ContainerExecInspect])
  | .ok inspect =>
    if inspect.ExitCode = 0 then (none, [.ContainerExecInspect])
    else
      match c.ContainerLogs with
      | .error err =>
        (some (.wrap (str "failed to get container logs") err),
          [.ContainerExecInspect, .ContainerLogs])
      | .ok _ =>
        match c.ReadAll with
        | .error err =>
          (some (.wrap (str "failed to get error logs") err),
            [.ContainerExecInspect, .ContainerLogs])
        | .ok errorDetails =>
          (some (.new (str "exit code: " ++ fmtInt inspect.ExitCode ++
              str ".\nContainer logs:\n" ++ errorDetails)),
            [.ContainerExecInspect, .ContainerLogs])

end Pkg

/-! ## The multiplexed stream (`stdcopy.StdCopy`) -/

/-- Go `binary.BigEndian.Uint32` of four bytes. -/
def beUint32 (b0 b1 b2 b3 : Byte) : Nat :=
  b0 * 16777216 + b1 * 65536 + b2 * 256 + b3

/-- What `StdCopy` leaves: the bytes written to the two sinks and the error returned. -/
structure StdCopyResult where
  dstout : GoString
  dsterr : GoString
  err : Option GoErr
  deriving DecidableEq, Repr

/-- Modelled from the spec: the loop of `stdcopy.StdCopy` (Docker client library, not
part of the sources) over the bytes still to be read; `dstout` and `dsterr` are the
bytes written so far. Every round consumes a header, so `fuel` equal to the number of
bytes is enough. -/
def stdCopyLoop : Nat → GoString → GoString → GoString → StdCopyResult
  | 0, _, dstout, dsterr => ⟨dstout, dsterr, none⟩
  | fuel + 1, src, dstout, dsterr =>
    match src with
    | fd :: _ :: _ :: _ :: b0 :: b1 :: b2 :: b3 :: body =>
      let frameSize := beUint32 b0 b1 b2 b3
      if fd = 0 ∨ fd = 1 ∨ fd = 2 ∨ fd = 3 then
        if body.length < frameSize then
          -- end of input inside the frame
          ⟨dstout, dsterr, none⟩
        else if fd = 3 then
          ⟨dstout, dsterr,
            some (.new (str "error from daemon in stream: " ++ body.take frameSize))⟩
        else if fd = 2 then
          stdCopyLoop fuel (body.drop frameSize) dstout (dsterr ++ body.take frameSize)
        else
          stdCopyLoop fuel (body.drop frameSize) (dstout ++ body.take frameSize) dsterr
      else
        ⟨dstout, dsterr, some (.new (str "Unrecognized input header: " ++ fmtInt fd))⟩
    | _ =>
      -- end of input before a full header
      ⟨dstout, dsterr, none⟩

/-- Modelled from the spec: `stdcopy.StdCopy` of the Docker client library, the
demultiplexer called by `processAttachResponse`; the library is not part of the
sources. The stream is read as frames, each an 8-byte header (1 type byte, 3 reserved
bytes, 4-byte big-endian payload length) followed by exactly that many payload bytes,
header and payload in strict alternation until the end of input; the payload goes to
the sink of its type byte (1 is stdout, 2 is stderr) and an unknown type byte is an
error. As in the library, type byte 0 (stdin) is also copied to stdout, type byte 3
carries an error of the daemon, and input that ends inside a frame ends the copy. -/
def StdCopy (src : GoString) : StdCopyResult :=
  stdCopyLoop src.length src [] []

/-- The event `outputDone` that the goroutine of `processAttachResponse` raises when
`StdCopy` has read the whole stream `reader`. -/
def demuxDone (reader : GoString) : AttachEvent :=
  .outputDone (StdCopy reader).dstout (StdCopy reader).dsterr (StdCopy reader).err

/-- The two channels of the multiplexed stream, with their type bytes. -/
inductive StdType where
  | Stdout
  | Stderr
  deriving DecidableEq, Repr

/-- The type byte of a channel: `stdcopy.Stdout` is 1, `stdcopy.Stderr` is 2. -/
def StdType.fd : StdType → Byte
  | .Stdout => 1
  | .Stderr => 2

/-- A frame of the multiplexed stream: the channel, the three reserved bytes of the
header and the payload. -/
structure StreamFrame where
  kind : StdType
  reserved : Byte × Byte × Byte
  payload : GoString
  deriving DecidableEq, Repr

/-- The bytes of a frame on the wire: the 8-byte header, then the payload. -/
def StreamFrame.encode (f : StreamFrame) : GoString :=
  [f.kind.fd, f.reserved.1, f.reserved.2.1, f.reserved.2.2,
   f.payload.length / 16777216 % 256, f.payload.length / 65536 % 256,
   f.payload.length / 256 % 256, f.payload.length % 256] ++ f.payload

/-- The bytes of a frame sequence on the wire. -/
def encodeFrames (frames : List StreamFrame) : GoString :=
  (frames.map StreamFrame.encode).flatten

/-- The payloads of the frames of one channel, concatenated in order. -/
def payloadsOf (kind : StdType) (frames : List StreamFrame) : GoString :=
  ((frames.filter (fun f => f.kind = kind)).map (fun f => f.payload)).flatten

namespace Pkg

/-- Go `ProcessAttachResponse` (pkg/.../tools.go:333-362): the bytes written to
`output` and the error returned. -/
def ProcessAttachResponse (ev : AttachEvent) : GoString × Option GoErr :=
  match ev with
  | .outputDone outBuf _ (some err) => (outBuf, some (.wrap (str "failed to copy output") err))
  | .ctxDone cause => ([], some (.ctx cause))
  | .outputDone outBuf errBuf none =>
    if errBuf.length > 0 then (outBuf, some (.new errBuf))
    else (outBuf, none)

end Pkg

/-! ## Facts about `TrimSpace` -/

theorem spaceRunes_ne_nil {w : GoString} (h : w ∈ spaceRunes) : w ≠ [] := by
  intro hw
  subst hw
  revert h
  decide

theorem leadingSpace_some {s w : GoString} (h : leadingSpace s = some w) :
    w ∈ spaceRunes ∧ ∃ t, s = w ++ t := by
  unfold leadingSpace at h
  refine ⟨List.mem_of_find?_eq_some h, ?_⟩
  have hp := List.find?_some h
  have hp2 : w <+: s := List.isPrefixOf_iff_prefix.mp hp
  obtain ⟨t, ht⟩ := hp2
  exact ⟨t, ht.symm⟩

theorem trailingSpace_some {s w : GoString} (h : trailingSpace s = some w) :
    w ∈ spaceRunes ∧ ∃ t, s = t ++ w := by
  unfold trailingSpace at h
  refine ⟨List.mem_of_find?_eq_some h, ?_⟩
  have hp := List.find?_some h
  have hp2 : w.reverse <+: s.reverse := List.isPrefixOf_iff_prefix.mp hp
  obtain ⟨t, ht⟩ := hp2
  refine ⟨t.reverse, ?_⟩
  have := congrArg List.reverse ht
  simpa using this.symm

theorem SpaceRun.append {a b : GoString} (ha : SpaceRun a) (hb : SpaceRun b) :
    SpaceRun (a ++ b) := by
  induction ha with
  | nil => simpa using hb
  | cons w t hw _ ih =>
    rw [List.append_assoc]
    exact SpaceRun.cons w (t ++ b) hw ih

theorem SpaceRun.single {w : GoString} (hw : w ∈ spaceRunes) : SpaceRun w := by
  have := SpaceRun.cons w [] hw SpaceRun.nil
  simpa using this

theorem trimLeftN_split (n : Nat) (s : GoString) :
    ∃ pre, SpaceRun pre ∧ s = pre ++ trimLeftN n s := by
  induction n generalizing s with
  | zero => exact ⟨[], SpaceRun.nil, rfl⟩
  | succ n ih =>
    unfold trimLeftN
    cases h : leadingSpace s with
    | none => exact ⟨[], SpaceRun.nil, rfl⟩
    | some w =>
      obtain ⟨hw, t, ht⟩ := leadingSpace_some h
      obtain ⟨pre, hpre, hsplit⟩ := ih (s.drop w.length)
      refine ⟨w ++ pre, SpaceRun.append (SpaceRun.single hw) hpre, ?_⟩
      have hd : s.drop w.length = t := by rw [ht]; simp
      simp only [hd] at hsplit ⊢
      rw [List.append_assoc, ← hsplit, ht]

theorem trimLeftN_done (n : Nat) (s : GoString) (hn : s.length ≤ n) :
    leadingSpace (trimLeftN n s) = none := by
  induction n generalizing s with
  | zero =>
    have : s = [] := List.length_eq_zero.mp (Nat.le_zero.mp hn)
    subst this
    decide
  | succ n ih =>
    unfold trimLeftN
    cases h : leadingSpace s with
    | none => simpa using h
    | some w =>
      obtain ⟨hw, t, ht⟩ := leadingSpace_some h
      have hpos : 0 < w.length := List.length_pos.mpr (spaceRunes_ne_nil hw)
      apply ih
      have hl : s.length = w.length + t.length := by rw [ht]; simp
      simp only [List.length_drop]
      omega

theorem trimRightN_split (n : Nat) (s : GoString) :
    ∃ post, SpaceRun post ∧ s = trimRightN n s ++ post := by
  induction n generalizing s with
  | zero => exact ⟨[], SpaceRun.nil, by simp [trimRightN]⟩
  | succ n ih =>
    unfold trimRightN
    cases h : trailingSpace s with
    | none => exact ⟨[], SpaceRun.nil, by simp⟩
    | some w =>
      obtain ⟨hw, t, ht⟩ := trailingSpace_some h
      obtain ⟨post, hpost, hsplit⟩ := ih (s.take (s.length - w.length))
      refine ⟨post ++ w, SpaceRun.append hpost (SpaceRun.single hw), ?_⟩
      have hd : s.take (s.length - w.length) = t := by rw [ht]; simp
      simp only [hd] at hsplit ⊢
      rw [← List.append_assoc, ← hsplit, ht]

theorem trimRightN_done (n : Nat) (s : GoString) (hn : s.length ≤ n) :
    trailingSpace (trimRightN n s) = none := by
  induction n generalizing s with
  | zero =>
    have : s = [] := List.length_eq_zero.mp (Nat.le_zero.mp hn)
    subst this
    decide
  | succ n ih =>
    unfold trimRightN
    cases h : trailingSpace s with
    | none => simpa using h
    | some w =>
      obtain ⟨hw, t, ht⟩ := trailingSpace_some h
      have hpos : 0 < w.length := List.length_pos.mpr (spaceRunes_ne_nil hw)
      apply ih
      have hl : s.length = t.length + w.length := by rw [ht]; simp
      simp only [List.length_take]
      omega

theorem leadingSpace_none_of_append {r post : GoString}
    (h : leadingSpace (r ++ post) = none) : leadingSpace r = none := by
  unfold leadingSpace at h ⊢
  rw [List.find?_eq_none] at h ⊢
  intro w hw hp
  apply h w hw
  have hp2 : w <+: r := List.isPrefixOf_iff_prefix.mp hp
  exact List.isPrefixOf_iff_prefix.mpr (hp2.trans (List.prefix_append r post))

/-- What `TrimSpace` returns: the input is a run of white space, the result, and a run
of white space; the result neither starts nor ends with a white-space rune. -/
theorem TrimSpace_spec (s : GoString) :
    (∃ pre post, SpaceRun pre ∧ SpaceRun post ∧ s = pre ++ TrimSpace s ++ post) ∧
    leadingSpace (TrimSpace s) = none ∧ trailingSpace (TrimSpace s) = none := by
  obtain ⟨pre, hpre, hl⟩ := trimLeftN_split s.length s
  obtain ⟨post, hpost, hr⟩ := trimRightN_split (trimLeftN s.length s).length (trimLeftN s.length s)
  have hdone := trimLeftN_done s.length s (Nat.le_refl _)
  refine ⟨⟨pre, post, hpre, hpost, ?_⟩, ?_, ?_⟩
  · show s = pre ++ trimRightN _ (trimLeftN s.length s) ++ post
    rw [List.append_assoc, ← hr, ← hl]
  · show leadingSpace (trimRightN _ (trimLeftN s.length s)) = none
    rw [hr] at hdone
    exact leadingSpace_none_of_append hdone
  · exact trimRightN_done _ _ (Nat.le_refl _)

/-- The model of `bytes.TrimSpace` on ASCII white space, on the no-break space and the
line separator, and on a truncated rune. -/
theorem TrimSpace_examples :
    TrimSpace (str " \t ab c\n") = str "ab c" ∧
    TrimSpace ([194, 160, 32] ++ str "x" ++ [226, 128, 168, 10]) = str "x" ∧
    TrimSpace [226, 128, 32] = [226, 128] ∧
    TrimSpace [32, 128, 226, 128, 128, 128] = [128, 226, 128, 128, 128] := by
  refine ⟨?_, ?_, ?_, ?_⟩ <;> decide

/-! ## Claims on command execution -/

/-- C1. In `ExecCommandWithOutput`, whenever the demultiplexed result has a non-empty
stderr accumulator, the call returns a non-nil error, whatever the runtime would report
for the exec session (exit code 0 included): the session is not even inspected, and when
session creation, attach and the copy succeeded the error carries the stderr bytes. -/
theorem C1_stderr_nonempty_is_failure (c : ExecClient) (outBuf errBuf : GoString)
    (copyErr : Option GoErr)
    (hattach : c.attach = .outputDone outBuf errBuf copyErr) (hne : errBuf ≠ []) :
    (Engine.ExecCommandWithOutput c).err ≠ none ∧
    ApiCall.ContainerExecInspect ∉ (Engine.ExecCommandWithOutput c).calls ∧
    (∀ id, c.ContainerExecCreate = .ok id → c.ContainerExecAttach = .ok () →
      copyErr = none →
      (Engine.ExecCommandWithOutput c).err =
        some (.wrap (str "failed to read response of exec command") (.new errBuf))) := by
  have hlen : errBuf.length > 0 := List.length_pos.mpr hne
  unfold Engine.ExecCommandWithOutput
  cases hc : c.ContainerExecCreate with
  | error e => simp
  | ok id =>
    cases ha : c.ContainerExecAttach with
    | error e => simp
    | ok u =>
      cases copyErr with
      | some e => simp [hattach, Engine.processAttachResponse]
      | none => simp [hattach, Engine.processAttachResponse, hlen]

/-- The example of the specification: exit code 0 with stderr "warning: x" fails. -/
theorem C1_stderr_nonempty_is_failure_witness :
    str "warning: x" ≠ [] ∧
    (Engine.ExecCommandWithOutput
      ⟨.ok (str "e1"), .ok (), .outputDone (str "ok") (str "warning: x") none,
        .ok ⟨false, 0⟩⟩).err ≠ none :=
  ⟨by decide,
   (C1_stderr_nonempty_is_failure
      ⟨.ok (str "e1"), .ok (), .outputDone (str "ok") (str "warning: x") none,
        .ok ⟨false, 0⟩⟩ (str "ok") (str "warning: x") none rfl (by decide)).1⟩

/-- C2. In `ExecCommandWithOutput`, when session creation, attach, demultiplexing and
inspection all succeed without cancellation, stderr is empty and the inspected exit code
is 0, the call returns a nil error and the stdout bytes with all leading and trailing
white space removed: stdout is a run of white space, then the returned string, then a
run of white space, and the returned string neither starts nor ends with white space. -/
theorem C2_success_returns_trimmed_stdout (c : ExecClient) (id outBuf : GoString)
    (insp : ContainerExecInspect)
    (hcreate : c.ContainerExecCreate = .ok id) (hatt : c.ContainerExecAttach = .ok ())
    (hattach : c.attach = .outputDone outBuf [] none)
    (hinsp : c.ContainerExecInspect = .ok insp) (hcode : insp.ExitCode = 0) :
    (Engine.ExecCommandWithOutput c).err = none ∧
    (Engine.ExecCommandWithOutput c).output = TrimSpace outBuf ∧
    (∃ pre post, SpaceRun pre ∧ SpaceRun post ∧
      outBuf = pre ++ (Engine.ExecCommandWithOutput c).output ++ post) ∧
    leadingSpace (Engine.ExecCommandWithOutput c).output = none ∧
    trailingSpace (Engine.ExecCommandWithOutput c).output = none := by
  have hout : Engine.ExecCommandWithOutput c =
      ⟨TrimSpace outBuf, none,
        [.ContainerExecCreate, .ContainerExecAttach, .ContainerExecInspect]⟩ := by
    simp [Engine.ExecCommandWithOutput, hcreate, hatt, hattach, hinsp, hcode,
      Engine.processAttachResponse]
  rw [hout]
  exact ⟨rfl, rfl, TrimSpace_spec outBuf⟩

/-- A run with stdout "  16 \n", empty stderr and exit code 0 returns "16". -/
theorem C2_success_returns_trimmed_stdout_witness :
    (Engine.ExecCommandWithOutput
      ⟨.ok (str "e1"), .ok (), .outputDone (str "  16 \n") [] none, .ok ⟨false, 0⟩⟩).err = none ∧
    (Engine.ExecCommandWithOutput
      ⟨.ok (str "e1"), .ok (), .outputDone (str "  16 \n") [] none, .ok ⟨false, 0⟩⟩).output
      = str "16" :=
  have h := C2_success_returns_trimmed_stdout
    ⟨.ok (str "e1"), .ok (), .outputDone (str "  16 \n") [] none, .ok ⟨false, 0⟩⟩
    (str "e1") (str "  16 \n") ⟨false, 0⟩ rfl rfl rfl rfl rfl
  ⟨h.1, h.2.1.trans (by decide)⟩

/-- C3. In `ExecCommandWithOutput`, a run in which stderr is empty and the inspected exit
code `code` is not zero returns the non-nil error "exit code: code", whose message
contains the decimal rendering of `code`; and in every run the exec session is inspected
only when the copy succeeded with an empty stderr accumulator. -/
theorem C3_nonzero_exit_code_error (c : ExecClient) (id outBuf : GoString)
    (insp : ContainerExecInspect)
    (hcreate : c.ContainerExecCreate = .ok id) (hatt : c.ContainerExecAttach = .ok ())
    (hattach : c.attach = .outputDone outBuf [] none)
    (hinsp : c.ContainerExecInspect = .ok insp) (hcode : insp.ExitCode ≠ 0) :
    (∃ e, (Engine.ExecCommandWithOutput c).err = some e ∧
      e.Error = str "exit code: " ++ fmtInt insp.ExitCode ∧
      fmtInt insp.ExitCode <:+: e.Error) ∧
    (∀ d : ExecClient, ApiCall.ContainerExecInspect ∈ (Engine.ExecCommandWithOutput d).calls →
      ∃ out, d.attach = .outputDone out [] none) := by
  constructor
  · refine ⟨.new (str "exit code: " ++ fmtInt insp.ExitCode), ?_, rfl, ?_⟩
    · simp [Engine.ExecCommandWithOutput, hcreate, hatt, hattach, hinsp, hcode,
        Engine.processAttachResponse]
    · exact ⟨str "exit code: ", [], by simp [GoErr.Error]⟩
  · intro d
    unfold Engine.ExecCommandWithOutput
    cases hc : d.ContainerExecCreate with
    | error e => simp
    | ok id =>
      cases ha : d.ContainerExecAttach with
      | error e => simp
      | ok u =>
        cases hev : d.attach with
        | ctxDone cause => simp [Engine.processAttachResponse]
        | outputDone out errb cerr =>
          cases cerr with
          | some e => simp [Engine.processAttachResponse]
          | none =>
            cases errb with
            | nil => simp
            | cons b bs => simp [Engine.processAttachResponse]

/-- A run with empty stderr and exit code 2 fails with the message "exit code: 2". -/
theorem C3_nonzero_exit_code_error_witness :
    ∃ e, (Engine.ExecCommandWithOutput
        ⟨.ok (str "e1"), .ok (), .outputDone (str "out") [] none, .ok ⟨false, 2⟩⟩).err = some e ∧
      e.Error = str "exit code: 2" :=
  have h := (C3_nonzero_exit_code_error
    ⟨.ok (str "e1"), .ok (), .outputDone (str "out") [] none, .ok ⟨false, 2⟩⟩
    (str "e1") (str "out") ⟨false, 2⟩ rfl rfl rfl rfl (by decide)).1
  h.elim (fun e he => ⟨e, he.1, he.2.1.trans (by decide)⟩)

/-! ## Facts about mounts -/

theorem foldl_snoc_eq_map {α β : Type} (f : α → β) (l : List α) (acc : List β) :
    l.foldl (fun ms a => ms ++ [f a]) acc = acc ++ l.map f := by
  induction l generalizing acc with
  | nil => simp
  | cons a t ih => simp [ih]

theorem Engine.GetMountsFromMountPoints_eq_map (dataDir : GoString) (mps : List MountPoint) :
    Engine.GetMountsFromMountPoints dataDir mps = mps.map (Engine.mountOf dataDir) := by
  unfold Engine.GetMountsFromMountPoints
  rw [foldl_snoc_eq_map]
  simp

theorem Pkg.GetMountsFromMountPoints_eq_engine (dataDir : GoString) (mps : List MountPoint) :
    Pkg.GetMountsFromMountPoints dataDir mps = Engine.GetMountsFromMountPoints dataDir mps :=
  rfl

theorem Pkg.AddVolumesToHostConfig_eq_engine (env : HostEnv) (hc : HostConfig)
    (dataDir : GoString) :
    Pkg.AddVolumesToHostConfig env hc dataDir = Engine.AddVolumesToHostConfig env hc dataDir :=
  rfl

theorem hasPrefixOf_self (s : GoString) : hasPrefixOf s s = true := by
  simp [hasPrefixOf]

theorem Engine.mountOf_target (dataDir : GoString) (mp : MountPoint) :
    (Engine.mountOf dataDir mp).Target =
      if hasPrefixOf dataDir mp.Destination then dataDir else mp.Destination := by
  unfold Engine.mountOf
  split <;> simp_all

/-- With pairwise distinct destinations of which at most one is a prefix of the data
directory, the targets computed are pairwise distinct. -/
theorem Engine.mountOf_targets_nodup (dataDir : GoString) (mps : List MountPoint)
    (hd : (mps.map (fun mp => mp.Destination)).Nodup)
    (hone : (mps.filter (fun mp => hasPrefixOf dataDir mp.Destination)).length ≤ 1) :
    ((mps.map (Engine.mountOf dataDir)).map (fun m => m.Target)).Nodup := by
  induction mps with
  | nil => simp
  | cons mp rest ih =>
    simp only [List.map_cons, List.nodup_cons] at hd ⊢
    obtain ⟨hnotin, hrest⟩ := hd
    have hrest1 : (rest.filter (fun mp => hasPrefixOf dataDir mp.Destination)).length ≤ 1 := by
      rw [List.filter_cons] at hone
      split at hone
      · simp only [List.length_cons] at hone; omega
      · exact hone
    refine ⟨?_, ih hrest hrest1⟩
    intro hmem
    simp only [List.mem_map] at hmem
    obtain ⟨m, ⟨q, hq, rfl⟩, hmq⟩ := hmem
    rw [Engine.mountOf_target, Engine.mountOf_target] at hmq
    by_cases hp : hasPrefixOf dataDir mp.Destination = true
    · -- the head is rewritten: no other mount point is a prefix
      have hnil : rest.filter (fun mp => hasPrefixOf dataDir mp.Destination) = [] := by
        rw [List.filter_cons, if_pos hp] at hone
        simp only [List.length_cons] at hone
        exact List.length_eq_zero.mp (by omega)
      have hq2 : ¬ hasPrefixOf dataDir q.Destination = true := by
        intro hqp
        have : q ∈ rest.filter (fun mp => hasPrefixOf dataDir mp.Destination) :=
          List.mem_filter.mpr ⟨hq, hqp⟩
        rw [hnil] at this
        exact List.not_mem_nil _ this
      rw [if_pos hp, if_neg hq2] at hmq
      apply hq2
      rw [hmq]
      exact hasPrefixOf_self dataDir
    · rw [if_neg hp] at hmq
      by_cases hqp : hasPrefixOf dataDir q.Destination = true
      · rw [if_pos hqp] at hmq
        apply hp
        rw [← hmq]
        exact hasPrefixOf_self dataDir
      · rw [if_neg hqp] at hmq
        apply hnotin
        exact List.mem_map.mpr ⟨q, hq, hmq⟩

theorem hasPrefixOf_iff (s pre : GoString) : hasPrefixOf s pre = true ↔ pre <+: s := by
  unfold hasPrefixOf
  constructor
  · intro h
    simp only [Bool.and_eq_true, decide_eq_true_eq, beq_iff_eq] at h
    have ht := List.take_append_drop pre.length s
    rw [h.2] at ht
    exact ⟨s.drop pre.length, ht⟩
  · rintro ⟨t, rfl⟩
    simp

theorem trimPrefixOf_of_prefix {s pre : GoString} (h : pre <+: s) :
    trimPrefixOf s pre = s.drop pre.length := by
  unfold trimPrefixOf
  rw [if_pos ((hasPrefixOf_iff s pre).mpr h)]

theorem Engine.mountOf_of_prefix (dataDir : GoString) (mp : MountPoint)
    (h : mp.Destination <+: dataDir) :
    Engine.mountOf dataDir mp =
      { Typ := mp.Typ
        Source := pathJoin [mp.Source, dataDir.drop mp.Destination.length]
        Target := dataDir
        ReadOnly := !mp.RW
        BindOptions := some { Propagation := mp.Propagation } } := by
  unfold Engine.mountOf
  simp [(hasPrefixOf_iff dataDir mp.Destination).mpr h, trimPrefixOf_of_prefix h]

/-- The model of `path.Clean` and `path.Join` on cases of the test table of Go's
package `path`. -/
theorem Clean_examples :
    Clean (str "/vol/data//pg") = str "/vol/data/pg" ∧
    Clean (str "a/./b//c/") = str "a/b/c" ∧
    Clean (str "/../a") = str "/a" ∧
    Clean (str "../../a/..") = str "../.." ∧
    Clean (str "a/b/../../..") = str ".." ∧
    Clean (str "/a/b/../c/.") = str "/a/c" ∧
    Clean (str "abc/def/..") = str "abc" ∧
    Clean (str "/") = str "/" ∧
    Clean (str "//") = str "/" ∧
    Clean (str "./") = str "." ∧
    Clean (str "..") = str ".." ∧
    Clean (str "/..") = str "/" ∧
    Clean (str "abc/../../././../def") = str "../../def" ∧
    Clean (str "abc//./../def") = str "def" ∧
    Clean (str "/abc/def/../../..") = str "/" ∧
    Clean (str "a..b/.c/..d.") = str "a..b/.c/..d." ∧
    pathJoin [str "/vol/data", str "/pg"] = str "/vol/data/pg" ∧
    pathJoin [str "/vol/data", str "2/pg"] = str "/vol/data/2/pg" ∧
    pathJoin [str "/vol/data", str ""] = str "/vol/data" ∧
    pathJoin [str "", str ""] = str "" ∧
    pathJoin [str "", str "a"] = str "a" ∧
    pathJoin [str "a", str "../../b"] = str "../b" := by
  refine ⟨?_, ?_, ?_, ?_, ?_, ?_, ?_, ?_, ?_, ?_, ?_, ?_, ?_, ?_, ?_, ?_, ?_, ?_, ?_, ?_, ?_, ?_⟩ <;>
    decide

/-! ## Claims on mounts -/

/-- C4, as stated, fails: for the data directory "/data/pg/" and the mount point with
destination "/data" and source "/vol/data", the destination is a prefix of the data
directory, the source computed is "/vol/data/pg", and the source concatenated with the
stripped data directory is "/vol/data/pg/". -/
theorem C4_source_is_joined_not_concatenated :
    str "/data" <+: str "/data/pg/" ∧
    (Engine.GetMountsFromMountPoints (str "/data/pg/")
      [⟨str "bind", [], str "/vol/data", str "/data", [], [], true, str "rprivate"⟩]).map
      (fun m => (m.Source, m.Target)) = [(str "/vol/data/pg", str "/data/pg/")] ∧
    str "/vol/data" ++ (str "/data/pg/").drop (str "/data").length = str "/vol/data/pg/" ∧
    str "/vol/data/pg" ≠ str "/vol/data" ++ (str "/data/pg/").drop (str "/data").length := by
  refine ⟨?_, ?_, ?_, ?_⟩ <;> decide

/-- C4, amended. `GetMountsFromMountPoints` (both generations): each mount point whose
destination is a prefix of the data directory yields, at the same index, a mount whose
source is `path.Join` of the existing source and the data directory stripped of that
destination prefix, and whose target is the data directory. -/
theorem C4_rewritten_mount (dataDir : GoString) (mountPoints : List MountPoint) (i : Nat)
    (mp : MountPoint) (hi : mountPoints[i]? = some mp) (hp : mp.Destination <+: dataDir) :
    ∃ m, (Engine.GetMountsFromMountPoints dataDir mountPoints)[i]? = some m ∧
      (Pkg.GetMountsFromMountPoints dataDir mountPoints)[i]? = some m ∧
      m.Source = pathJoin [mp.Source, dataDir.drop mp.Destination.length] ∧
      m.Target = dataDir := by
  refine ⟨Engine.mountOf dataDir mp, ?_, ?_, ?_, ?_⟩
  · rw [Engine.GetMountsFromMountPoints_eq_map, List.getElem?_map, hi]
    rfl
  · rw [Pkg.GetMountsFromMountPoints_eq_engine, Engine.GetMountsFromMountPoints_eq_map,
      List.getElem?_map, hi]
    rfl
  · rw [Engine.mountOf_of_prefix dataDir mp hp]
  · rw [Engine.mountOf_of_prefix dataDir mp hp]

/-- The example of the specification: data directory "/data/pg" and a mount with
destination "/data" and source "/vol/data" yield source "/vol/data/pg", target
"/data/pg". -/
theorem C4_rewritten_mount_witness :
    ∃ m, (Engine.GetMountsFromMountPoints (str "/data/pg")
        [⟨str "bind", [], str "/vol/data", str "/data", [], [], true, str "rprivate"⟩])[0]?
        = some m ∧
      (Pkg.GetMountsFromMountPoints (str "/data/pg")
        [⟨str "bind", [], str "/vol/data", str "/data", [], [], true, str "rprivate"⟩])[0]?
        = some m ∧
      m.Source = str "/vol/data/pg" ∧ m.Target = str "/data/pg" :=
  (C4_rewritten_mount (str "/data/pg")
    [⟨str "bind", [], str "/vol/data", str "/data", [], [], true, str "rprivate"⟩] 0
    ⟨str "bind", [], str "/vol/data", str "/data", [], [], true, str "rprivate"⟩ rfl
    (by decide)).imp
    (fun _ h => ⟨h.1, h.2.1, h.2.2.1.trans (by decide), h.2.2.2⟩)

/-- C5, as stated, fails. With the data directory "/data/pg" and mount points of the
distinct destinations "/data" and "/data/pg", both mounts computed have the target
"/data/pg"; and on a host that is not a guest, a host configuration that already mounts
the data directory gets a second mount with the same target. -/
theorem C5_duplicate_targets :
    ([str "/data", str "/data/pg"] : List GoString).Nodup ∧
    (Engine.GetMountsFromMountPoints (str "/data/pg")
      [⟨str "bind", [], str "/vol/data", str "/data", [], [], true, str "rprivate"⟩,
       ⟨str "bind", [], str "/vol/pg", str "/data/pg", [], [], true, str "rprivate"⟩]).map
      (fun m => m.Target) = [str "/data/pg", str "/data/pg"] ∧
    ((Engine.AddVolumesToHostConfig
        ⟨.ok ⟨str "host1", str "", str "host"⟩, fun _ => .ok ⟨none, none, []⟩⟩
        ⟨[⟨TypeBind, str "/data/pg", str "/data/pg", false, none⟩]⟩
        (str "/data/pg")).1.Mounts.map (fun m => m.Target))
      = [str "/data/pg", str "/data/pg"] := by
  refine ⟨?_, ?_, ?_⟩ <;> decide

/-- C5, amended. For mount points with pairwise distinct destinations of which at most
one is a prefix of the data directory, the mounts of `GetMountsFromMountPoints` (and so
of `AddVolumesToHostConfig` on a guest) have pairwise distinct targets; on a host that is
not a guest the mounts left by `AddVolumesToHostConfig` have pairwise distinct targets
when the incoming ones had and none of them targets the data directory. -/
theorem C5_targets_distinct (dataDir : GoString) (mountPoints : List MountPoint)
    (hd : (mountPoints.map (fun mp => mp.Destination)).Nodup)
    (hone : (mountPoints.filter (fun mp => hasPrefixOf dataDir mp.Destination)).length ≤ 1) :
    ((Engine.GetMountsFromMountPoints dataDir mountPoints).map (fun m => m.Target)).Nodup ∧
    ((Pkg.GetMountsFromMountPoints dataDir mountPoints).map (fun m => m.Target)).Nodup ∧
    (∀ (env : HostEnv) (hostConfig : HostConfig) (info : InfoStat) (insp : ContainerJSON),
      env.Info = .ok info → info.VirtualizationRole = str "guest" →
      env.ContainerInspect info.Hostname = .ok insp → insp.Mounts = mountPoints →
      ((Engine.AddVolumesToHostConfig env hostConfig dataDir).1.Mounts.map
        (fun m => m.Target)).Nodup ∧
      ((Pkg.AddVolumesToHostConfig env hostConfig dataDir).1.Mounts.map
        (fun m => m.Target)).Nodup) ∧
    (∀ (env : HostEnv) (hostConfig : HostConfig) (info : InfoStat),
      env.Info = .ok info → info.VirtualizationRole ≠ str "guest" →
      (hostConfig.Mounts.map (fun m => m.Target)).Nodup →
      dataDir ∉ hostConfig.Mounts.map (fun m => m.Target) →
      ((Engine.AddVolumesToHostConfig env hostConfig dataDir).1.Mounts.map
        (fun m => m.Target)).Nodup ∧
      ((Pkg.AddVolumesToHostConfig env hostConfig dataDir).1.Mounts.map
        (fun m => m.Target)).Nodup) := by
  have hmain : ((Engine.GetMountsFromMountPoints dataDir mountPoints).map
      (fun m => m.Target)).Nodup := by
    rw [Engine.GetMountsFromMountPoints_eq_map]
    exact Engine.mountOf_targets_nodup dataDir mountPoints hd hone
  refine ⟨hmain, ?_, ?_, ?_⟩
  · rw [Pkg.GetMountsFromMountPoints_eq_engine]
    exact hmain
  · intro env hostConfig info insp hinfo hrole hinsp hm
    rw [Pkg.AddVolumesToHostConfig_eq_engine]
    have : (Engine.AddVolumesToHostConfig env hostConfig dataDir).1.Mounts =
        Engine.GetMountsFromMountPoints dataDir mountPoints := by
      simp [Engine.AddVolumesToHostConfig, hinfo, hrole, hinsp, hm]
    rw [this]
    exact ⟨hmain, hmain⟩
  · intro env hostConfig info hinfo hrole hnd hnotin
    rw [Pkg.AddVolumesToHostConfig_eq_engine]
    have : (Engine.AddVolumesToHostConfig env hostConfig dataDir).1.Mounts =
        hostConfig.Mounts ++ [⟨TypeBind, dataDir, dataDir, false, none⟩] := by
      simp [Engine.AddVolumesToHostConfig, hinfo, hrole]
    rw [this]
    have hnd2 : ((hostConfig.Mounts ++
        [(⟨TypeBind, dataDir, dataDir, false, none⟩ : Mount)]).map
        (fun m => m.Target)).Nodup := by
      rw [List.map_append, List.nodup_append]
      refine ⟨hnd, by simp, ?_⟩
      intro a ha hb
      simp only [List.map_cons, List.map_nil, List.mem_singleton] at hb
      subst hb
      exact hnotin ha
    exact ⟨hnd2, hnd2⟩

/-- Mount points "/data" and "/var/log" for the data directory "/data/pg": the targets
are "/data/pg" and "/var/log". -/
theorem C5_targets_distinct_witness :
    ((Engine.GetMountsFromMountPoints (str "/data/pg")
      [⟨str "bind", [], str "/vol/data", str "/data", [], [], true, str "rprivate"⟩,
       ⟨str "bind", [], str "/vol/log", str "/var/log", [], [], false, str "rprivate"⟩]).map
      (fun m => m.Target)).Nodup :=
  (C5_targets_distinct (str "/data/pg")
    [⟨str "bind", [], str "/vol/data", str "/data", [], [], true, str "rprivate"⟩,
     ⟨str "bind", [], str "/vol/log", str "/var/log", [], [], false, str "rprivate"⟩]
    (by decide) (by decide)).1

/-- C6, as stated, fails: on a host that is not a guest, a host configuration that comes
in with one mount leaves `AddVolumesToHostConfig` with two. -/
theorem C6_incoming_mounts_are_kept :
    (Engine.AddVolumesToHostConfig
        ⟨.ok ⟨str "host1", str "", str "host"⟩, fun _ => .ok ⟨none, none, []⟩⟩
        ⟨[⟨TypeBind, str "/var/run/docker.sock", str "/var/run/docker.sock", false, none⟩]⟩
        (str "/data/pg")) =
      (⟨[⟨TypeBind, str "/var/run/docker.sock", str "/var/run/docker.sock", false, none⟩,
         ⟨TypeBind, str "/data/pg", str "/data/pg", false, none⟩]⟩, none) := by
  decide

/-- C6, amended. `AddVolumesToHostConfig` (both generations), when the host information
is obtained and the virtualization role is not "guest", returns no error and appends to
the incoming mounts exactly one mount, of type bind with source and target both equal to
the data directory; the host configuration is left with exactly that one mount when it
came in with none. -/
theorem C6_not_guest_appends_bind_mount (env : HostEnv) (hostConfig : HostConfig)
    (dataDir : GoString) (info : InfoStat)
    (hinfo : env.Info = .ok info) (hrole : info.VirtualizationRole ≠ str "guest") :
    Engine.AddVolumesToHostConfig env hostConfig dataDir =
      (⟨hostConfig.Mounts ++ [⟨TypeBind, dataDir, dataDir, false, none⟩]⟩, none) ∧
    Pkg.AddVolumesToHostConfig env hostConfig dataDir =
      (⟨hostConfig.Mounts ++ [⟨TypeBind, dataDir, dataDir, false, none⟩]⟩, none) ∧
    (hostConfig.Mounts = [] →
      (Engine.AddVolumesToHostConfig env hostConfig dataDir).1.Mounts =
        [⟨TypeBind, dataDir, dataDir, false, none⟩] ∧
      (Pkg.AddVolumesToHostConfig env hostConfig dataDir).1.Mounts =
        [⟨TypeBind, dataDir, dataDir, false, none⟩]) := by
  have h : Engine.AddVolumesToHostConfig env hostConfig dataDir =
      (⟨hostConfig.Mounts ++ [⟨TypeBind, dataDir, dataDir, false, none⟩]⟩, none) := by
    simp [Engine.AddVolumesToHostConfig, hinfo, hrole]
  refine ⟨h, ?_, ?_⟩
  · rw [Pkg.AddVolumesToHostConfig_eq_engine]
    exact h
  · intro hnil
    rw [Pkg.AddVolumesToHostConfig_eq_engine, h, hnil]
    exact ⟨rfl, rfl⟩

/-- On a host whose role is "host", an empty host configuration is left with the one
bind mount of "/data/pg". -/
theorem C6_not_guest_appends_bind_mount_witness :
    Engine.AddVolumesToHostConfig
        ⟨.ok ⟨str "host1", str "", str "host"⟩, fun _ => .ok ⟨none, none, []⟩⟩ ⟨[]⟩
        (str "/data/pg") =
      (⟨[] ++ [⟨TypeBind, str "/data/pg", str "/data/pg", false, none⟩]⟩, none) :=
  (C6_not_guest_appends_bind_mount
    ⟨.ok ⟨str "host1", str "", str "host"⟩, fun _ => .ok ⟨none, none, []⟩⟩ ⟨[]⟩
    (str "/data/pg") ⟨str "host1", str "", str "host"⟩ rfl (by decide)).1

/-! ## Facts about the polling loop -/

theorem Engine.pollOnce_sleep_calls {containerID : GoString} {t : Tick}
    (h : (Engine.pollOnce containerID t).1 = .sleep) :
    Engine.pollOnce containerID t = (.sleep, [.ContainerInspect]) := by
  unfold Engine.pollOnce at h ⊢
  cases hc : t.ctxErr with
  | some cause => simp [hc] at h
  | none =>
    cases hi : t.ContainerInspect with
    | error err => simp [hc, hi] at h
    | ok resp =>
      simp only [hc, hi] at h ⊢
      rw [h]

theorem Engine.CheckContainerReadiness_sleep (containerID : GoString) (t : Tick)
    (rest : List Tick) (h : (Engine.pollOnce containerID t).1 = .sleep) :
    Engine.CheckContainerReadiness containerID (t :: rest) =
      ⟨(Engine.CheckContainerReadiness containerID rest).outcome,
       .ContainerInspect :: (Engine.CheckContainerReadiness containerID rest).calls,
       (Engine.CheckContainerReadiness containerID rest).sleeps + 1⟩ := by
  rw [Engine.CheckContainerReadiness, Engine.pollOnce_sleep_calls h]
  rfl

theorem Engine.CheckContainerReadiness_stop (containerID : GoString) (t : Tick)
    (rest : List Tick) (h : (Engine.pollOnce containerID t).1 ≠ .sleep) :
    Engine.CheckContainerReadiness containerID (t :: rest) =
      ⟨(Engine.pollOnce containerID t).1, (Engine.pollOnce containerID t).2, 0⟩ := by
  rw [Engine.CheckContainerReadiness]
  cases hp : Engine.pollOnce containerID t with
  | mk step calls =>
    rw [hp] at h
    cases step with
    | sleep => exact absurd rfl h
    | ret err => rfl
    | nilDeref => rfl

/-- After rounds that all sleep, the run stands where the run over the later rounds
stands, one inspection and one sleep later for each of them. -/
theorem Engine.CheckContainerReadiness_append (containerID : GoString)
    (pre rest : List Tick) (hpre : ∀ t ∈ pre, (Engine.pollOnce containerID t).1 = .sleep) :
    Engine.CheckContainerReadiness containerID (pre ++ rest) =
      ⟨(Engine.CheckContainerReadiness containerID rest).outcome,
       List.replicate pre.length .ContainerInspect ++
         (Engine.CheckContainerReadiness containerID rest).calls,
       (Engine.CheckContainerReadiness containerID rest).sleeps + pre.length⟩ := by
  induction pre with
  | nil => simp
  | cons t pre ih =>
    have ht := hpre t (List.mem_cons_self t pre)
    have hrest : ∀ u ∈ pre, (Engine.pollOnce containerID u).1 = .sleep :=
      fun u hu => hpre u (List.mem_cons_of_mem t hu)
    rw [List.cons_append, Engine.CheckContainerReadiness_sleep containerID t _ ht, ih hrest]
    simp [List.replicate_succ, Nat.add_assoc]

theorem engine_healthStep_probe (resp : ContainerJSON) (state : ContainerState)
    (health : Health) (last : HealthcheckResult)
    (hs : resp.State = some state) (hh : state.Health = some health)
    (hnh : health.Status ≠ Healthy) (hnu : health.Status ≠ Unhealthy)
    (hlast : health.Log.getLast? = some last) :
    Engine.healthStep resp =
      if last.ExitCode > 1 then .ret (some (.healthCheck last.ExitCode last.Output))
      else .sleep := by
  unfold Engine.healthStep
  simp only [hs, hh, if_neg hnh, if_neg hnu, hlast]

theorem pkg_healthStep_probe (resp : ContainerJSON) (state : ContainerState)
    (health : Health) (last : HealthcheckResult)
    (hs : resp.State = some state) (hh : state.Health = some health)
    (hnh : health.Status ≠ Healthy) (hnu : health.Status ≠ Unhealthy)
    (hlast : health.Log.getLast? = some last) :
    Pkg.healthStep resp =
      if last.ExitCode > 1 then
        .ret (some (.new (str "health check failed. Code: " ++
          fmtInt last.ExitCode ++ str ", Output: " ++ last.Output)))
      else .sleep := by
  unfold Pkg.healthStep
  simp only [hs, hh, if_neg hnh, if_neg hnu, hlast]

theorem carriesProbe_message (pre : GoString) (p : HealthcheckResult) (e : GoErr)
    (h : e.Error = pre ++ fmtInt p.ExitCode ++ str ", Output: " ++ p.Output) :
    CarriesProbe e p := by
  unfold CarriesProbe
  rw [h]
  exact ⟨⟨pre, str ", Output: " ++ p.Output, by simp [List.append_assoc]⟩,
    ⟨pre ++ fmtInt p.ExitCode ++ str ", Output: ", [], by simp [List.append_assoc]⟩⟩

/-! ## Claims on readiness polling -/

/-- C7. `CheckContainerReadiness`, engine generation: for an inspection that carries a
health record whose status is neither healthy nor unhealthy, if the most recent
probe-log entry has exit code 0 or 1 the round ends in the sleep and the loop goes on
with the next round; if it has an exit code greater than 1 the function returns in that
very round, the first one included, the `ErrHealthCheck` whose `ExitCode` and `Output`
are those of that entry. -/
theorem C7_probe_log_decision (containerID : GoString) (resp : ContainerJSON)
    (state : ContainerState) (health : Health) (last : HealthcheckResult)
    (hs : resp.State = some state) (hh : state.Health = some health)
    (hnh : health.Status ≠ Healthy) (hnu : health.Status ≠ Unhealthy)
    (hlast : health.Log.getLast? = some last) :
    ((last.ExitCode = 0 ∨ last.ExitCode = 1) →
      Engine.pollOnce containerID ⟨none, .ok resp⟩ = (.sleep, [.ContainerInspect]) ∧
      ∀ rest, Engine.CheckContainerReadiness containerID (⟨none, .ok resp⟩ :: rest) =
        ⟨(Engine.CheckContainerReadiness containerID rest).outcome,
         .ContainerInspect :: (Engine.CheckContainerReadiness containerID rest).calls,
         (Engine.CheckContainerReadiness containerID rest).sleeps + 1⟩) ∧
    (last.ExitCode > 1 →
      Engine.pollOnce containerID ⟨none, .ok resp⟩ =
        (.ret (some (.healthCheck last.ExitCode last.Output)), [.ContainerInspect]) ∧
      (∀ rest, Engine.CheckContainerReadiness containerID (⟨none, .ok resp⟩ :: rest) =
        ⟨.ret (some (.healthCheck last.ExitCode last.Output)), [.ContainerInspect], 0⟩) ∧
      (∀ pre rest, (∀ t ∈ pre, (Engine.pollOnce containerID t).1 = .sleep) →
        (Engine.CheckContainerReadiness containerID (pre ++ ⟨none, .ok resp⟩ :: rest)).outcome
          = .ret (some (.healthCheck last.ExitCode last.Output)) ∧
        (Engine.CheckContainerReadiness containerID (pre ++ ⟨none, .ok resp⟩ :: rest)).sleeps
          = pre.length)) := by
  have hstep := engine_healthStep_probe resp state health last hs hh hnh hnu hlast
  constructor
  · intro hcode
    have hle : ¬ last.ExitCode > 1 := by omega
    have hp : Engine.pollOnce containerID ⟨none, .ok resp⟩ = (.sleep, [.ContainerInspect]) := by
      simp only [Engine.pollOnce, hstep, if_neg hle]
    refine ⟨hp, fun rest => ?_⟩
    exact Engine.CheckContainerReadiness_sleep containerID _ rest (by rw [hp])
  · intro hcode
    have hp : Engine.pollOnce containerID ⟨none, .ok resp⟩ =
        (.ret (some (.healthCheck last.ExitCode last.Output)), [.ContainerInspect]) := by
      simp only [Engine.pollOnce, hstep, if_pos hcode]
    have hstop : ∀ rest, Engine.CheckContainerReadiness containerID (⟨none, .ok resp⟩ :: rest) =
        ⟨.ret (some (.healthCheck last.ExitCode last.Output)), [.ContainerInspect], 0⟩ := by
      intro rest
      rw [Engine.CheckContainerReadiness_stop containerID _ rest (by rw [hp]; simp), hp]
    refine ⟨hp, hstop, fun pre rest hpre => ?_⟩
    rw [Engine.CheckContainerReadiness_append containerID pre _ hpre, hstop]
    simp

/-- A probe log entry with exit code 2 ends the run in the first round. -/
theorem C7_probe_log_decision_witness :
    Engine.CheckContainerReadiness (str "c1")
      [⟨none, .ok (inspected Starting [⟨2, str "exec failed"⟩])⟩] =
      ⟨.ret (some (.healthCheck 2 (str "exec failed"))), [.ContainerInspect], 0⟩ :=
  ((C7_probe_log_decision (str "c1") (inspected Starting [⟨2, str "exec failed"⟩])
    ⟨some ⟨Starting, 0, [⟨2, str "exec failed"⟩]⟩⟩ ⟨Starting, 0, [⟨2, str "exec failed"⟩]⟩
    ⟨2, str "exec failed"⟩ rfl rfl (by decide) (by decide) rfl).2 (by decide)).2.1 []

/-- C8, the generation under `pkg/`: a round that observes the cancellation signal makes
`CheckContainerReadiness` return nil, the result it returns for a healthy container,
whereas the engine generation returns `ctx.Err()`. -/
theorem C8_pkg_cancellation_returns_nil (containerID : GoString) (cause : CtxErr)
    (insp : Except GoErr ContainerJSON) (rest : List Tick) :
    (Pkg.CheckContainerReadiness containerID (⟨some cause, insp⟩ :: rest)).outcome
      = .ret none ∧
    (Pkg.CheckContainerReadiness containerID
      (⟨none, .ok (inspected Healthy [])⟩ :: rest)).outcome = .ret none ∧
    (Engine.CheckContainerReadiness containerID (⟨some cause, insp⟩ :: rest)).outcome
      = .ret (some (.ctx cause)) :=
  ⟨rfl, rfl, rfl⟩

/-- C9. `CheckContainerReadiness`, engine generation: the cancellation signal is checked
at the start of every round before the container is inspected. When it is set the
function returns `ctx.Err()` whatever an inspection would have reported, and the round
makes no inspection: the calls of the run are the inspections of the earlier rounds. -/
theorem C9_cancellation_checked_first (containerID : GoString) (cause : CtxErr)
    (insp : Except GoErr ContainerJSON) (pre rest : List Tick)
    (hpre : ∀ t ∈ pre, (Engine.pollOnce containerID t).1 = .sleep) :
    Engine.pollOnce containerID ⟨some cause, insp⟩ = (.ret (some (.ctx cause)), []) ∧
    Engine.CheckContainerReadiness containerID (pre ++ ⟨some cause, insp⟩ :: rest) =
      ⟨.ret (some (.ctx cause)), List.replicate pre.length .ContainerInspect, pre.length⟩ := by
  have hp : Engine.pollOnce containerID ⟨some cause, insp⟩ = (.ret (some (.ctx cause)), []) :=
    rfl
  refine ⟨hp, ?_⟩
  rw [Engine.CheckContainerReadiness_append containerID pre _ hpre,
    Engine.CheckContainerReadiness_stop containerID _ rest (by rw [hp]; simp), hp]
  simp

/-- After one round that sleeps, a cancelled round returns `context.Canceled` although
the container would have been reported healthy: one inspection, one sleep. -/
theorem C9_cancellation_checked_first_witness :
    Engine.CheckContainerReadiness (str "c1")
      ([⟨none, .ok (inspected Starting [])⟩] ++
        ⟨some .Canceled, .ok (inspected Healthy [])⟩ :: []) =
      ⟨.ret (some (.ctx .Canceled)), List.replicate 1 .ContainerInspect, 1⟩ :=
  (C9_cancellation_checked_first (str "c1") .Canceled (.ok (inspected Healthy []))
    [⟨none, .ok (inspected Starting [])⟩] [] (by decide)).2

/-- C10, as stated, fails for the unhealthy-status outcome. For an inspection with status
unhealthy, three retries configured and the last probe-log entry of exit code 1 and
output "no response", the error of the engine generation is "container health check
failed. The maximum number of attempts has reached: 3" and the error of the generation
under `pkg/` is "container health check failed": the messages contain neither the exit
code nor the output. -/
theorem C10_unhealthy_error_omits_probe :
    (∃ e, (Engine.CheckContainerReadiness (str "c1")
        [⟨none, .ok (inspected Unhealthy [⟨1, str "no response"⟩])⟩]).outcome = .ret (some e) ∧
      e.Error = str ("container health check failed. " ++
        "The maximum number of attempts has reached: 3") ∧
      ¬ fmtInt 1 <:+: e.Error ∧ ¬ str "no response" <:+: e.Error ∧
      ¬ CarriesProbe e ⟨1, str "no response"⟩) ∧
    (∃ e, (Pkg.CheckContainerReadiness (str "c1")
        [⟨none, .ok (inspected Unhealthy [⟨1, str "no response"⟩])⟩]).outcome = .ret (some e) ∧
      e.Error = str "container health check failed" ∧
      ¬ fmtInt 1 <:+: e.Error ∧ ¬ str "no response" <:+: e.Error ∧
      ¬ CarriesProbe e ⟨1, str "no response"⟩) := by
  refine ⟨⟨.new (str ("container health check failed. " ++
      "The maximum number of attempts has reached: 3")), by decide, by decide, ?_, ?_, ?_⟩,
    ⟨.new (str "container health check failed"), by decide, by decide, ?_, ?_, ?_⟩⟩
  all_goals first
    | (set_option maxRecDepth 20000 in decide)
    | (intro h; revert h; unfold CarriesProbe; set_option maxRecDepth 20000 in decide)

/-- C10, amended. For an inspection whose health record has a non-empty probe log: the
probe-execution-error outcome of `CheckContainerReadiness` (status neither healthy nor
unhealthy, last exit code greater than 1) includes the last entry's exit code and
captured output in the returned error, in both generations; the unhealthy-status outcome
returns a message that does not depend on the probe log: the configured retry count in
the engine generation, a fixed text in the generation under `pkg/`. -/
theorem C10_probe_error_carries_last_entry (containerID : GoString) (resp : ContainerJSON)
    (state : ContainerState) (health : Health) (last : HealthcheckResult)
    (hs : resp.State = some state) (hh : state.Health = some health)
    (hlast : health.Log.getLast? = some last) :
    (health.Status ≠ Healthy → health.Status ≠ Unhealthy → last.ExitCode > 1 →
      (Engine.pollOnce containerID ⟨none, .ok resp⟩).1 =
        .ret (some (.healthCheck last.ExitCode last.Output)) ∧
      CarriesProbe (.healthCheck last.ExitCode last.Output) last ∧
      ∃ e, (Pkg.pollOnce containerID ⟨none, .ok resp⟩).1 = .ret (some e) ∧
        CarriesProbe e last) ∧
    (health.Status = Unhealthy →
      (Pkg.pollOnce containerID ⟨none, .ok resp⟩).1 =
        .ret (some (.new (str "container health check failed"))) ∧
      ∀ config healthcheck, resp.Config = some config →
        config.Healthcheck = some healthcheck →
        (Engine.pollOnce containerID ⟨none, .ok resp⟩).1 =
          .ret (some (.new (str ("container health check failed. " ++
            "The maximum number of attempts has reached: ") ++
            fmtInt healthcheck.Retries)))) := by
  constructor
  · intro hnh hnu hcode
    have he := engine_healthStep_probe resp state health last hs hh hnh hnu hlast
    have hp := pkg_healthStep_probe resp state health last hs hh hnh hnu hlast
    rw [if_pos hcode] at he hp
    refine ⟨by simp only [Engine.pollOnce, he],
      carriesProbe_message (str "health check failed. Code: ") last _ rfl,
      .new (str "health check failed. Code: " ++ fmtInt last.ExitCode ++
        str ", Output: " ++ last.Output),
      by simp only [Pkg.pollOnce, hp],
      carriesProbe_message (str "health check failed. Code: ") last _ rfl⟩
  · intro hu
    have hnh : health.Status ≠ Healthy := by rw [hu]; decide
    constructor
    · simp only [Pkg.pollOnce, Pkg.healthStep, hs, hh, if_neg hnh, if_pos hu]
    · intro config healthcheck hc hhc
      simp only [Engine.pollOnce, Engine.healthStep, hs, hh, if_neg hnh, if_pos hu, hc, hhc]

/-- A starting container whose last probe has exit code 2 and output "exec failed": the
error returned is the `ErrHealthCheck` of that entry. -/
theorem C10_probe_error_carries_last_entry_witness :
    (Engine.pollOnce (str "c1")
      ⟨none, .ok (inspected Starting [⟨1, str "no"⟩, ⟨2, str "exec failed"⟩])⟩).1 =
      .ret (some (.healthCheck 2 (str "exec failed"))) ∧
    CarriesProbe (.healthCheck 2 (str "exec failed")) ⟨2, str "exec failed"⟩ :=
  have h := (C10_probe_error_carries_last_entry (str "c1")
    (inspected Starting [⟨1, str "no"⟩, ⟨2, str "exec failed"⟩])
    ⟨some ⟨Starting, 0, [⟨1, str "no"⟩, ⟨2, str "exec failed"⟩]⟩⟩
    ⟨Starting, 0, [⟨1, str "no"⟩, ⟨2, str "exec failed"⟩]⟩
    ⟨2, str "exec failed"⟩ rfl rfl rfl).1 (by decide) (by decide) (by decide)
  ⟨h.1, h.2.1⟩


/-! ## Facts about the multiplexed stream -/

theorem beUint32_encode (n : Nat) (h : n < 4294967296) :
    beUint32 (n / 16777216 % 256) (n / 65536 % 256) (n / 256 % 256) (n % 256) = n := by
  unfold beUint32
  omega

/-- One round of the loop on a stream that starts with a whole frame. -/
theorem stdCopyLoop_frame (fuel : Nat) (f : StreamFrame) (rest dstout dsterr : GoString)
    (h : f.payload.length < 4294967296) :
    stdCopyLoop (fuel + 1) (f.encode ++ rest) dstout dsterr =
      match f.kind with
      | .Stdout => stdCopyLoop fuel rest (dstout ++ f.payload) dsterr
      | .Stderr => stdCopyLoop fuel rest dstout (dsterr ++ f.payload) := by
  have hlen := beUint32_encode f.payload.length h
  cases hk : f.kind <;>
    simp [StreamFrame.encode, stdCopyLoop, hk, StdType.fd, hlen]

theorem stdCopyLoop_nil (fuel : Nat) (dstout dsterr : GoString) :
    stdCopyLoop fuel [] dstout dsterr = ⟨dstout, dsterr, none⟩ := by
  cases fuel <;> rfl

theorem payloadsOf_cons (kind : StdType) (f : StreamFrame) (frames : List StreamFrame) :
    payloadsOf kind (f :: frames) =
      (if f.kind = kind then f.payload else []) ++ payloadsOf kind frames := by
  unfold payloadsOf
  by_cases h : f.kind = kind <;> simp [List.filter_cons, h]

theorem stdCopyLoop_frames (frames : List StreamFrame) (fuel : Nat)
    (dstout dsterr : GoString)
    (hwf : ∀ f ∈ frames, f.payload.length < 4294967296) (hfuel : frames.length ≤ fuel) :
    stdCopyLoop fuel (encodeFrames frames) dstout dsterr =
      ⟨dstout ++ payloadsOf .Stdout frames, dsterr ++ payloadsOf .Stderr frames, none⟩ := by
  induction frames generalizing fuel dstout dsterr with
  | nil => simp [encodeFrames, payloadsOf, stdCopyLoop_nil]
  | cons f frames ih =>
    cases fuel with
    | zero => simp at hfuel
    | succ fuel =>
      have hf := hwf f (List.mem_cons_self f frames)
      have hrest : ∀ g ∈ frames, g.payload.length < 4294967296 :=
        fun g hg => hwf g (List.mem_cons_of_mem f hg)
      have hfuel2 : frames.length ≤ fuel := by simpa using hfuel
      have henc : encodeFrames (f :: frames) = f.encode ++ encodeFrames frames := by
        simp [encodeFrames]
      rw [henc, stdCopyLoop_frame fuel f _ dstout dsterr hf, payloadsOf_cons, payloadsOf_cons]
      cases hk : f.kind <;> simp [ih _ _ _ hrest hfuel2, List.append_assoc]

theorem length_le_encodeFrames (frames : List StreamFrame) :
    frames.length ≤ (encodeFrames frames).length := by
  induction frames with
  | nil => simp
  | cons f frames ih =>
    have henc : encodeFrames (f :: frames) = f.encode ++ encodeFrames frames := by
      simp [encodeFrames]
    rw [henc]
    simp only [List.length_append, List.length_cons, StreamFrame.encode]
    omega

/-- The model of `StdCopy` on a stream of three frames, on a stream that ends inside a
frame and on an unknown type byte. -/
theorem StdCopy_examples :
    StdCopy ([1, 0, 0, 0, 0, 0, 0, 3] ++ str "abc" ++ [2, 0, 0, 0, 0, 0, 0, 2] ++ str "xy" ++
      [1, 0, 0, 0, 0, 0, 0, 1] ++ str "d") = ⟨str "abcd", str "xy", none⟩ ∧
    encodeFrames [⟨.Stdout, (0, 0, 0), str "abc"⟩, ⟨.Stderr, (0, 0, 0), str "xy"⟩] =
      [1, 0, 0, 0, 0, 0, 0, 3] ++ str "abc" ++ [2, 0, 0, 0, 0, 0, 0, 2] ++ str "xy" ∧
    StdCopy ([1, 0, 0, 0, 0, 0, 0, 3] ++ str "ab") = ⟨[], [], none⟩ ∧
    (StdCopy ([7, 0, 0, 0, 0, 0, 0, 3] ++ str "abc")).err =
      some (.new (str "Unrecognized input header: 7")) := by
  refine ⟨?_, ?_, ?_, ?_⟩ <;> decide

theorem Engine.pollOnce_noCancel (containerID : GoString) (resp : ContainerJSON) :
    Engine.pollOnce containerID ⟨none, .ok resp⟩ = (Engine.healthStep resp, [.ContainerInspect]) :=
  rfl

theorem Engine.noCancel_sleeps (containerID : GoString) (pre : List ContainerJSON)
    (hpre : ∀ r ∈ pre, Engine.healthStep r = .sleep) :
    ∀ t ∈ noCancel pre, (Engine.pollOnce containerID t).1 = .sleep := by
  intro t ht
  unfold noCancel at ht
  obtain ⟨r, hr, rfl⟩ := List.mem_map.mp ht
  rw [Engine.pollOnce_noCancel]
  exact hpre r hr

theorem Engine.healthStep_healthy (resp : ContainerJSON) (state : ContainerState)
    (health : Health) (hs : resp.State = some state) (hh : state.Health = some health)
    (hst : health.Status = Healthy) : Engine.healthStep resp = .ret none := by
  simp [Engine.healthStep, hs, hh, hst]

theorem Engine.mountOf_fields (dataDir : GoString) (mp : MountPoint) :
    (Engine.mountOf dataDir mp).Typ = mp.Typ ∧
    (Engine.mountOf dataDir mp).ReadOnly = !mp.RW ∧
    (Engine.mountOf dataDir mp).BindOptions = some ⟨mp.Propagation⟩ := by
  unfold Engine.mountOf
  split <;> exact ⟨rfl, rfl, rfl⟩

theorem Engine.mountOf_not_prefix (dataDir : GoString) (mp : MountPoint)
    (h : ¬ mp.Destination <+: dataDir) :
    (Engine.mountOf dataDir mp).Source = mp.Source ∧
    (Engine.mountOf dataDir mp).Target = mp.Destination := by
  have hp : ¬ hasPrefixOf dataDir mp.Destination = true :=
    fun hh => h ((hasPrefixOf_iff dataDir mp.Destination).mp hh)
  unfold Engine.mountOf
  simp [hp]

/-- When a mount is left with its original source and destination. -/
theorem Engine.mountOf_unchanged_iff (dataDir : GoString) (mp : MountPoint) :
    ((Engine.mountOf dataDir mp).Source = mp.Source ∧
      (Engine.mountOf dataDir mp).Target = mp.Destination) ↔
    (¬ mp.Destination <+: dataDir ∨
      (mp.Destination = dataDir ∧ pathJoin [mp.Source, []] = mp.Source)) := by
  by_cases hp : mp.Destination <+: dataDir
  · rw [Engine.mountOf_of_prefix dataDir mp hp]
    constructor
    · rintro ⟨hsrc, htgt⟩
      refine Or.inr ⟨htgt.symm, ?_⟩
      simp only at hsrc htgt
      rw [← htgt] at hsrc
      simpa using hsrc
    · rintro (hn | ⟨hd, hj⟩)
      · exact absurd hp hn
      · refine ⟨?_, hd.symm⟩
        simp only
        rw [← hd]
        simpa using hj
  · constructor
    · intro _
      exact Or.inl hp
    · intro _
      exact Engine.mountOf_not_prefix dataDir mp hp

/-- The elements of paths, and the ancestor test on them. -/
theorem pathElements_examples :
    pathElements (str "/database/pg") = [str "database", str "pg"] ∧
    pathElements (str "/data") = [str "data"] ∧
    pathElements (str "/data//pg/") = [str "data", str "pg"] ∧
    pathElements (str "/") = [] ∧
    pathElements [] = [] ∧
    isPathAncestor (str "/data") (str "/data/pg") := by
  refine ⟨?_, ?_, ?_, ?_, ?_, ?_⟩ <;> first | decide | (unfold isPathAncestor; decide)

/-! ## Claims on the terminal state, the command inspection, the mounts and the stream -/

/-- C11. `CheckContainerReadiness` (engine generation) over a sequence of inspection
results without cancellation: when the inspections before the k-th all leave the loop
polling and the k-th reports status healthy, the function returns success (nil) after
exactly k inspections and k - 1 sleeps, whatever rounds would follow; and the round in
which a run stops decides from its own inspection alone, whatever polling rounds came
before and whatever rounds follow. -/
theorem C11_healthy_is_terminal (containerID : GoString) (pre : List ContainerJSON)
    (resp : ContainerJSON) (state : ContainerState) (health : Health)
    (hpre : ∀ r ∈ pre, Engine.healthStep r = .sleep)
    (hs : resp.State = some state) (hh : state.Health = some health)
    (hst : health.Status = Healthy) :
    (∀ rest, Engine.CheckContainerReadiness containerID
        (noCancel pre ++ ⟨none, .ok resp⟩ :: rest) =
      ⟨.ret none, List.replicate (pre.length + 1) .ContainerInspect, pre.length⟩) ∧
    (∀ rest rest2,
      Engine.CheckContainerReadiness containerID (noCancel pre ++ ⟨none, .ok resp⟩ :: rest) =
      Engine.CheckContainerReadiness containerID (noCancel pre ++ ⟨none, .ok resp⟩ :: rest2)) ∧
    (∀ (before : List ContainerJSON) (r : ContainerJSON) (rest : List Tick),
      (∀ b ∈ before, Engine.healthStep b = .sleep) → Engine.healthStep r ≠ .sleep →
      (Engine.CheckContainerReadiness containerID
        (noCancel before ++ ⟨none, .ok r⟩ :: rest)).outcome = Engine.healthStep r) := by
  have hmain : ∀ rest, Engine.CheckContainerReadiness containerID
      (noCancel pre ++ ⟨none, .ok resp⟩ :: rest) =
      ⟨.ret none, List.replicate (pre.length + 1) .ContainerInspect, pre.length⟩ := by
    intro rest
    have hstep := Engine.healthStep_healthy resp state health hs hh hst
    have hp : Engine.pollOnce containerID ⟨none, .ok resp⟩ = (.ret none, [.ContainerInspect]) := by
      rw [Engine.pollOnce_noCancel, hstep]
    rw [Engine.CheckContainerReadiness_append containerID (noCancel pre) _
        (Engine.noCancel_sleeps containerID pre hpre),
      Engine.CheckContainerReadiness_stop containerID _ rest (by rw [hp]; simp), hp]
    simp [noCancel, List.replicate_succ', List.replicate_add]
  refine ⟨hmain, fun rest rest2 => by rw [hmain rest, hmain rest2], ?_⟩
  intro before r rest hbefore hr
  rw [Engine.CheckContainerReadiness_append containerID (noCancel before) _
      (Engine.noCancel_sleeps containerID before hbefore),
    Engine.CheckContainerReadiness_stop containerID _ rest
      (by rw [Engine.pollOnce_noCancel]; exact hr)]
  rfl

/-- Two inspections that report starting, then one that reports healthy: success after
three inspections and two sleeps, although a later round would report unhealthy. -/
theorem C11_healthy_is_terminal_witness :
    Engine.CheckContainerReadiness (str "c1")
      (noCancel [inspected Starting [], inspected Starting [⟨1, str "no response"⟩]] ++
        ⟨none, .ok (inspected Healthy [⟨0, str "ok"⟩])⟩ ::
        [⟨none, .ok (inspected Unhealthy [])⟩]) =
      ⟨.ret none, List.replicate 3 .ContainerInspect, 2⟩ :=
  (C11_healthy_is_terminal (str "c1")
    [inspected Starting [], inspected Starting [⟨1, str "no response"⟩]]
    (inspected Healthy [⟨0, str "ok"⟩])
    ⟨some ⟨Healthy, 0, [⟨0, str "ok"⟩]⟩⟩ ⟨Healthy, 0, [⟨0, str "ok"⟩]⟩
    (by decide) rfl rfl rfl).1 [⟨none, .ok (inspected Unhealthy [])⟩]

/-- C12, as stated, fails. For exit code 137 and a failing `ContainerLogs` ("connection
refused"), `InspectCommandResponse` returns the error "failed to get container logs:
connection refused": it is not the exit-code error and its message does not contain the
exit code. The same holds when reading the log stream fails. -/
theorem C12_log_failure_replaces_exit_code :
    (∃ e, (Pkg.InspectCommandResponse
        ⟨.ok ⟨false, 137⟩, .error (.new (str "connection refused")), .ok []⟩).1 = some e ∧
      e.Error = str "failed to get container logs: connection refused" ∧
      ¬ fmtInt 137 <:+: e.Error) ∧
    (∃ e, (Pkg.InspectCommandResponse
        ⟨.ok ⟨false, 137⟩, .ok (), .error (.new (str "unexpected EOF"))⟩).1 = some e ∧
      e.Error = str "failed to get error logs: unexpected EOF" ∧
      ¬ fmtInt 137 <:+: e.Error) := by
  refine ⟨⟨.wrap (str "failed to get container logs") (.new (str "connection refused")),
      by decide, by decide, ?_⟩,
    ⟨.wrap (str "failed to get error logs") (.new (str "unexpected EOF")),
      by decide, by decide, ?_⟩⟩
  all_goals (set_option maxRecDepth 20000 in decide)

/-- C12, amended. `InspectCommandResponse` with a successful exec inspection: exit code
0 returns nil without fetching logs; for a non-zero exit code, a failure to fetch or to
read the container's recent logs returns that failure, wrapped as "failed to get
container logs" or "failed to get error logs", in place of the exit-code error; when the
logs are read, the error message is "exit code: " and the code, followed by the log
text. -/
theorem C12_inspect_command_response (c : InspectClient) (inspect : ContainerExecInspect)
    (hinspect : c.ContainerExecInspect = .ok inspect) :
    (inspect.ExitCode = 0 →
      Pkg.InspectCommandResponse c = (none, [.ContainerExecInspect])) ∧
    (inspect.ExitCode ≠ 0 →
      (∀ err, c.ContainerLogs = .error err →
        (Pkg.InspectCommandResponse c).1 =
          some (.wrap (str "failed to get container logs") err)) ∧
      (∀ err, c.ContainerLogs = .ok () → c.ReadAll = .error err →
        (Pkg.InspectCommandResponse c).1 =
          some (.wrap (str "failed to get error logs") err)) ∧
      (∀ logs, c.ContainerLogs = .ok () → c.ReadAll = .ok logs →
        ∃ e, (Pkg.InspectCommandResponse c).1 = some e ∧
          e.Error = str "exit code: " ++ fmtInt inspect.ExitCode ++
            str ".\nContainer logs:\n" ++ logs ∧
          (str "exit code: " ++ fmtInt inspect.ExitCode) <+: e.Error ∧
          logs <:+ e.Error)) := by
  constructor
  · intro h0
    simp [Pkg.InspectCommandResponse, hinspect, h0]
  · intro hne
    refine ⟨?_, ?_, ?_⟩
    · intro err hl
      simp [Pkg.InspectCommandResponse, hinspect, hne, hl]
    · intro err hl hr
      simp [Pkg.InspectCommandResponse, hinspect, hne, hl, hr]
    · intro logs hl hr
      refine ⟨.new (str "exit code: " ++ fmtInt inspect.ExitCode ++
        str ".\nContainer logs:\n" ++ logs), ?_, rfl, ?_, ?_⟩
      · simp [Pkg.InspectCommandResponse, hinspect, hne, hl, hr]
      · exact ⟨str ".\nContainer logs:\n" ++ logs, by simp [GoErr.Error, List.append_assoc]⟩
      · exact ⟨str "exit code: " ++ fmtInt inspect.ExitCode ++ str ".\nContainer logs:\n",
          by simp [GoErr.Error]⟩

/-- Exit code 1 with the log text "FATAL: could not start" gives the message with the
code and the logs; exit code 0 gives nil after the one inspection. -/
theorem C12_inspect_command_response_witness :
    (∃ e, (Pkg.InspectCommandResponse
        ⟨.ok ⟨false, 1⟩, .ok (), .ok (str "FATAL: could not start")⟩).1 = some e ∧
      e.Error = str "exit code: 1.\nContainer logs:\nFATAL: could not start") :=
  have h := ((C12_inspect_command_response
    ⟨.ok ⟨false, 1⟩, .ok (), .ok (str "FATAL: could not start")⟩ ⟨false, 1⟩ rfl).2
    (by decide)).2.2 (str "FATAL: could not start") rfl rfl
  h.imp (fun _ he => ⟨he.1, he.2.1.trans (by decide)⟩)

/-- C13. `GetMountsFromMountPoints` (both generations) is an elementwise map: the output
has the length of the input and, at every index, the output mount has the type of the
input mount point, `ReadOnly` equal to the negation of its `RW` and the bind propagation
equal to its `Propagation`, whether or not the mount was rewritten. -/
theorem C13_elementwise_map (dataDir : GoString) (mountPoints : List MountPoint) :
    (Engine.GetMountsFromMountPoints dataDir mountPoints).length = mountPoints.length ∧
    (Pkg.GetMountsFromMountPoints dataDir mountPoints).length = mountPoints.length ∧
    (∀ (i : Nat) (mp : MountPoint), mountPoints[i]? = some mp →
      ∃ m, (Engine.GetMountsFromMountPoints dataDir mountPoints)[i]? = some m ∧
        (Pkg.GetMountsFromMountPoints dataDir mountPoints)[i]? = some m ∧
        m.Typ = mp.Typ ∧ m.ReadOnly = (!mp.RW) ∧
        m.BindOptions = some ⟨mp.Propagation⟩) := by
  rw [Pkg.GetMountsFromMountPoints_eq_engine, Engine.GetMountsFromMountPoints_eq_map]
  refine ⟨by simp, by simp, ?_⟩
  intro i mp hi
  refine ⟨Engine.mountOf dataDir mp, ?_, ?_, Engine.mountOf_fields dataDir mp⟩ <;>
    rw [List.getElem?_map, hi] <;> rfl

/-- C14. The demultiplexer as used by `processAttachResponse`: for every well-formed
frame sequence (each frame an 8-byte header of 1 type byte, 3 reserved bytes and the
4-byte big-endian payload length, followed by the payload), `StdCopy` returns no error,
the stdout accumulator is the concatenation, in order, of the payloads of the frames
tagged stdout and the stderr accumulator that of the frames tagged stderr; so are the
buffers that both generations of `processAttachResponse` read. -/
theorem C14_demux_round_trip (frames : List StreamFrame)
    (hwf : ∀ f ∈ frames, f.payload.length < 4294967296) :
    StdCopy (encodeFrames frames) =
      ⟨payloadsOf .Stdout frames, payloadsOf .Stderr frames, none⟩ ∧
    demuxDone (encodeFrames frames) =
      .outputDone (payloadsOf .Stdout frames) (payloadsOf .Stderr frames) none ∧
    (Pkg.ProcessAttachResponse (demuxDone (encodeFrames frames))).1 =
      payloadsOf .Stdout frames ∧
    (payloadsOf .Stderr frames = [] →
      Engine.processAttachResponse (demuxDone (encodeFrames frames)) =
        (TrimSpace (payloadsOf .Stdout frames), none)) ∧
    (payloadsOf .Stderr frames ≠ [] →
      Engine.processAttachResponse (demuxDone (encodeFrames frames)) =
        ([], some (.new (payloadsOf .Stderr frames)))) := by
  have hcopy : StdCopy (encodeFrames frames) =
      ⟨payloadsOf .Stdout frames, payloadsOf .Stderr frames, none⟩ := by
    unfold StdCopy
    rw [stdCopyLoop_frames frames _ [] [] hwf (length_le_encodeFrames frames)]
    simp
  have hdone : demuxDone (encodeFrames frames) =
      .outputDone (payloadsOf .Stdout frames) (payloadsOf .Stderr frames) none := by
    unfold demuxDone
    rw [hcopy]
  refine ⟨hcopy, hdone, ?_, ?_, ?_⟩
  · rw [hdone]
    unfold Pkg.ProcessAttachResponse
    split <;> simp_all
    split <;> rfl
  · intro hnil
    rw [hdone, hnil]
    rfl
  · intro hne
    rw [hdone]
    have hlen : (payloadsOf .Stderr frames).length > 0 := List.length_pos.mpr hne
    simp [Engine.processAttachResponse, hlen]

/-- Frames stdout "ab", stderr "warning", stdout "c": the accumulators are "abc" and
"warning". -/
theorem C14_demux_round_trip_witness :
    StdCopy (encodeFrames [⟨.Stdout, (0, 0, 0), str "ab"⟩,
        ⟨.Stderr, (0, 0, 0), str "warning"⟩, ⟨.Stdout, (0, 0, 0), str "c"⟩]) =
      ⟨payloadsOf .Stdout [⟨.Stdout, (0, 0, 0), str "ab"⟩,
        ⟨.Stderr, (0, 0, 0), str "warning"⟩, ⟨.Stdout, (0, 0, 0), str "c"⟩],
       payloadsOf .Stderr [⟨.Stdout, (0, 0, 0), str "ab"⟩,
        ⟨.Stderr, (0, 0, 0), str "warning"⟩, ⟨.Stdout, (0, 0, 0), str "c"⟩], none⟩ ∧
    payloadsOf .Stdout [⟨.Stdout, (0, 0, 0), str "ab"⟩,
        ⟨.Stderr, (0, 0, 0), str "warning"⟩, ⟨.Stdout, (0, 0, 0), str "c"⟩] = str "abc" :=
  ⟨(C14_demux_round_trip [⟨.Stdout, (0, 0, 0), str "ab"⟩,
      ⟨.Stderr, (0, 0, 0), str "warning"⟩, ⟨.Stdout, (0, 0, 0), str "c"⟩]
      (by decide)).1, by decide⟩

/-- C15, as stated, fails in its converse. For the data directory "/data" and the mount
point with destination "/data" and source "/vol/data", the destination is a string
prefix of the data directory, and the mount computed has the original source and
destination. -/
theorem C15_prefix_mount_left_unchanged :
    str "/data" <+: str "/data" ∧
    (Engine.GetMountsFromMountPoints (str "/data")
      [⟨str "bind", [], str "/vol/data", str "/data", [], [], true, str "rprivate"⟩]).map
      (fun m => (m.Source, m.Target)) = [(str "/vol/data", str "/data")] := by
  refine ⟨?_, ?_⟩ <;> decide

/-- C15, amended. `GetMountsFromMountPoints` (both generations) decides rewriting by a
raw string-prefix test, not by path elements: for destination "/data", source
"/vol/data" and data directory "/database/pg" the destination is not a path ancestor of
the data directory, yet the mount is rewritten to target the data directory, with source
"/vol/data/base/pg". Conversely a mount is left with its original source and destination
exactly when its destination is not a string prefix of the data directory, or equals
the data directory with a source that `path.Join` returns unchanged. -/
theorem C15_raw_prefix_test :
    (¬ isPathAncestor (str "/data") (str "/database/pg") ∧
      str "/data" <+: str "/database/pg" ∧
      Engine.GetMountsFromMountPoints (str "/database/pg")
        [⟨str "bind", [], str "/vol/data", str "/data", [], [], true, str "rprivate"⟩] =
        [⟨str "bind", str "/vol/data/base/pg", str "/database/pg", false,
          some ⟨str "rprivate"⟩⟩] ∧
      Pkg.GetMountsFromMountPoints (str "/database/pg")
        [⟨str "bind", [], str "/vol/data", str "/data", [], [], true, str "rprivate"⟩] =
        [⟨str "bind", str "/vol/data/base/pg", str "/database/pg", false,
          some ⟨str "rprivate"⟩⟩]) ∧
    (∀ (dataDir : GoString) (mountPoints : List MountPoint) (i : Nat) (mp : MountPoint),
      mountPoints[i]? = some mp →
      ∃ m, (Engine.GetMountsFromMountPoints dataDir mountPoints)[i]? = some m ∧
        (Pkg.GetMountsFromMountPoints dataDir mountPoints)[i]? = some m ∧
        ((m.Source = mp.Source ∧ m.Target = mp.Destination) ↔
          (¬ mp.Destination <+: dataDir ∨
            (mp.Destination = dataDir ∧ pathJoin [mp.Source, []] = mp.Source)))) := by
  refine ⟨⟨?_, by decide, by decide, by decide⟩, ?_⟩
  · unfold isPathAncestor
    decide
  · intro dataDir mountPoints i mp hi
    refine ⟨Engine.mountOf dataDir mp, ?_, ?_, Engine.mountOf_unchanged_iff dataDir mp⟩
    · rw [Engine.GetMountsFromMountPoints_eq_map, List.getElem?_map, hi]
      rfl
    · rw [Pkg.GetMountsFromMountPoints_eq_engine, Engine.GetMountsFromMountPoints_eq_map,
        List.getElem?_map, hi]
      rfl
